import Mathlib

/-!
Verification of the slot-filling scheduling agent (`app/api/server.py`,
`app/services/calendar_service.py`, `app/services/gmail_service.py`).

The Python code is shallowly embedded as executable Lean definitions:

* Python dict values that can hold arbitrary JSON-shaped data are modelled by
  the inductive `JVal`; Python truthiness is `jTruthy`.
* Regex scans (`YES_RE`, `NO_RE`, `NO_EMAIL_RE`, `EMAIL_RE`, `URL_RE`, the
  timezone-abbreviation scan, `_cheap_title`, `wants_check_availability`) are
  implemented as direct character scanners with word-boundary semantics.
* `json.loads` is implemented as a recursive-descent parser (`parseJson`)
  mirroring Python's JSON grammar (objects collapse duplicate keys, last wins).
* `dateutil.parser.parse` is modelled for ISO-8601 shaped inputs
  (`YYYY-MM-DD[T HH:MM[:SS]][offset]`); the configured default timezone is
  modelled as a fixed UTC-offset (`Settings.defaultOffsetMin`), so DST
  transitions inside one zone are not modelled.  All claims proved below are
  insensitive to which strings exactly are parseable.
* External collaborators (completion LLM, Calendar insert, Gmail send) are
  oracles: an `Oracle` record supplies the response each call would return for
  the current turn.  Calls to collaborators are recorded in an event trace
  (`TurnEvent`) so that theorems can speak about which calls occurred.
* Python exceptions that can escape a function are modelled with `Except PyErr`.
-/

/-- ASCII apostrophe, single left/right curly brace as characters. -/
def aposC : Char := Char.ofNat 39

def aposS : String := String.singleton aposC

def lbrace : Char := Char.ofNat 123

def rbrace : Char := Char.ofNat 125

/-- Python `\w` (ASCII part): letters, digits, underscore. -/
def wordChar (c : Char) : Bool := c.isAlphanum || c == '_'

/-- Python `\s` (ASCII part). -/
def spaceChar (c : Char) : Bool :=
  c == ' ' || c == '\t' || c == '\n' || c == '\r' || c == Char.ofNat 11 || c == Char.ofNat 12

def lowerChars (cs : List Char) : List Char := cs.map Char.toLower

/-- Python `str.lower()` / `str.upper()` (ASCII; implemented structurally so
that proofs can evaluate them). -/
def lowerStr (s : String) : String := String.mk (s.data.map Char.toLower)

def upperStr (s : String) : String := String.mk (s.data.map Char.toUpper)

/-- Python `str.split(sep)` for a one-character separator. -/
def splitOnCharAux (c : Char) : List Char → List Char → List (List Char)
  | [], acc => [acc.reverse]
  | x :: t, acc =>
    if x == c then acc.reverse :: splitOnCharAux c t []
    else splitOnCharAux c t (x :: acc)

def splitOnChar (c : Char) (cs : List Char) : List (List Char) := splitOnCharAux c cs []

/-- Python `str.strip()` (whitespace from both ends). -/
def pyStrip (s : String) : String :=
  let cs := s.data
  let cs := (cs.dropWhile spaceChar).reverse
  let cs := (cs.dropWhile spaceChar).reverse
  String.mk cs

/-- Substring containment (Python `needle in hay`). -/
def listSub (needle hay : List Char) : Bool :=
  match hay with
  | [] => needle.isEmpty
  | _ :: t => needle.isPrefixOf hay || listSub needle t

def strSub (needle hay : String) : Bool := listSub needle.data hay.data

/-- Python `", ".join`-style joining of strings. -/
def joinComma (xs : List String) : String := String.intercalate ", " xs

/-- Zero-padded decimal rendering used by `datetime.isoformat`. -/
def pad2 (n : Nat) : String := if n < 10 then "0" ++ toString n else toString n

def pad4 (n : Nat) : String :=
  if n < 10 then "000" ++ toString n
  else if n < 100 then "00" ++ toString n
  else if n < 1000 then "0" ++ toString n
  else toString n

/-- JSON / Python values stored in the agent's dictionaries. -/
inductive JVal where
  | null : JVal
  | jbool : Bool → JVal
  | num : String → JVal            -- raw numeric token as parsed
  | str : String → JVal
  | arr : List JVal → JVal
  | obj : List (String × JVal) → JVal
deriving Inhabited

/-- Whether a numeric token denotes a non-zero number (mantissa has a non-zero
digit before any exponent marker). -/
def numNonZero (raw : String) : Bool :=
  (raw.data.takeWhile (fun c => c != 'e' && c != 'E')).any (fun c => c.isDigit && c != '0')

/-- Python truthiness of a `JVal`. -/
def jTruthy : JVal → Bool
  | .null => false
  | .jbool b => b
  | .num raw => numNonZero raw
  | .str s => !(s == "")
  | .arr xs => !xs.isEmpty
  | .obj fs => !fs.isEmpty

/-- Membership test used by the `set` action: `v not in (None, "", [])`. -/
def jExcludedSetVal : JVal → Bool
  | .null => true
  | .str s => s == ""
  | .arr xs => xs.isEmpty
  | _ => false

/-- Lookup in a parsed JSON object (keys are unique after parsing). -/
def jGet (fs : List (String × JVal)) (k : String) : Option JVal :=
  match fs with
  | [] => none
  | (k', v) :: t => if k' == k then some v else jGet t k

/-- Python dict insertion: replace the value in place if the key exists. -/
def jInsert (fs : List (String × JVal)) (k : String) (v : JVal) : List (String × JVal) :=
  match fs with
  | [] => [(k, v)]
  | (k', v') :: t => if k' == k then (k', v) :: t else (k', v') :: jInsert t k v

mutual

/-- Python `str()` of a value (used in f-strings / `.format`). -/
def pyStr : JVal → String
  | .null => "None"
  | .jbool b => if b then "True" else "False"
  | .num raw => raw
  | .str s => s
  | .arr xs => "[" ++ joinComma (pyReprList xs) ++ "]"
  | .obj _fs => "\x7b...\x7d"

/-- Python `repr()` of a value (string elements of containers get quoted).
Escape and dict-rendering details inside reprs are not modelled; no claim
observes them. -/
def pyRepr : JVal → String
  | .str s => aposS ++ s ++ aposS
  | .null => "None"
  | .jbool b => if b then "True" else "False"
  | .num raw => raw
  | .arr xs => "[" ++ joinComma (pyReprList xs) ++ "]"
  | .obj _fs => "\x7b...\x7d"

def pyReprList : List JVal → List String
  | [] => []
  | v :: t => pyRepr v :: pyReprList t

end

/-! ### JSON parsing (model of `json.loads` on the sliced completion output) -/

def jsonWs (c : Char) : Bool := c == ' ' || c == '\t' || c == '\n' || c == '\r'

def hexVal (c : Char) : Option Nat :=
  if c.isDigit then some (c.toNat - 48)
  else if 'a' ≤ c && c ≤ 'f' then some (c.toNat - 87)
  else if 'A' ≤ c && c ≤ 'F' then some (c.toNat - 55)
  else none

def parseU4 (cs : List Char) : Option (Nat × List Char) :=
  match cs with
  | a :: b :: c :: d :: t =>
    match hexVal a, hexVal b, hexVal c, hexVal d with
    | some x, some y, some z, some w => some ((((x * 16 + y) * 16 + z) * 16 + w), t)
    | _, _, _, _ => none
  | _ => none

/-- JSON string body parser (after the opening quote).  Surrogate pairs are
combined; a lone surrogate (which Python would keep as a lone surrogate code
unit) is approximated by U+FFFD, since `Char` cannot represent it. -/
def parseJStrLoop (fuel : Nat) (acc : List Char) (cs : List Char) : Option (String × List Char) :=
  match fuel with
  | 0 => none
  | fuel + 1 =>
    match cs with
    | [] => none
    | c :: t =>
      if c == '"' then some (String.mk acc.reverse, t)
      else if c == '\\' then
        match t with
        | [] => none
        | e :: t2 =>
          if e == '"' then parseJStrLoop fuel ('"' :: acc) t2
          else if e == '\\' then parseJStrLoop fuel ('\\' :: acc) t2
          else if e == '/' then parseJStrLoop fuel ('/' :: acc) t2
          else if e == 'b' then parseJStrLoop fuel (Char.ofNat 8 :: acc) t2
          else if e == 'f' then parseJStrLoop fuel (Char.ofNat 12 :: acc) t2
          else if e == 'n' then parseJStrLoop fuel ('\n' :: acc) t2
          else if e == 'r' then parseJStrLoop fuel ('\r' :: acc) t2
          else if e == 't' then parseJStrLoop fuel ('\t' :: acc) t2
          else if e == 'u' then
            match parseU4 t2 with
            | none => none
            | some (n, t3) =>
              if 0xD800 ≤ n && n ≤ 0xDBFF then
                match t3 with
                | '\\' :: 'u' :: t4 =>
                  match parseU4 t4 with
                  | some (m, t5) =>
                    if 0xDC00 ≤ m && m ≤ 0xDFFF then
                      parseJStrLoop fuel
                        (Char.ofNat (0x10000 + (n - 0xD800) * 1024 + (m - 0xDC00)) :: acc) t5
                    else parseJStrLoop fuel (Char.ofNat 0xFFFD :: acc) t3
                  | none => none
                | _ => parseJStrLoop fuel (Char.ofNat 0xFFFD :: acc) t3
              else if 0xDC00 ≤ n && n ≤ 0xDFFF then
                parseJStrLoop fuel (Char.ofNat 0xFFFD :: acc) t3
              else parseJStrLoop fuel (Char.ofNat n :: acc) t3
          else none
      else if c.toNat < 32 then none
      else parseJStrLoop fuel (c :: acc) t

def digitSpan (cs : List Char) : List Char × List Char :=
  (cs.takeWhile Char.isDigit, cs.dropWhile Char.isDigit)

/-- `int` part of the JSON number grammar: `0` or a nonzero digit followed by
digits (leading zeros rejected, as in Python's `json`). -/
def parseIntPart (cs : List Char) : Option (List Char × List Char) :=
  match cs with
  | '0' :: t => some (['0'], t)
  | c :: t =>
    if c.isDigit then
      let (ds, rest) := digitSpan t
      some (c :: ds, rest)
    else none
  | [] => none

def parseNumTok (cs : List Char) : Option (String × List Char) :=
  let (negPart, cs1) := match cs with
    | '-' :: t => (['-'], t)
    | _ => (([] : List Char), cs)
  match parseIntPart cs1 with
  | none => none
  | some (ip, r1) =>
    let (fp, r2) := match r1 with
      | '.' :: t =>
        let (ds, rest) := digitSpan t
        if ds.isEmpty then (([] : List Char), r1) else ('.' :: ds, rest)
      | _ => (([] : List Char), r1)
    let (ep, r3) := match r2 with
      | c :: t =>
        if c == 'e' || c == 'E' then
          match t with
          | s :: t2 =>
            if s == '+' || s == '-' then
              let (ds, rest) := digitSpan t2
              if ds.isEmpty then (([] : List Char), r2) else (c :: s :: ds, rest)
            else
              let (ds, rest) := digitSpan t
              if ds.isEmpty then (([] : List Char), r2) else (c :: ds, rest)
          | [] => (([] : List Char), r2)
        else (([] : List Char), r2)
      | [] => (([] : List Char), r2)
    some (String.mk (negPart ++ ip ++ fp ++ ep), r3)

mutual

/-- Model of Python's JSON value parser.  Leading whitespace is skipped; the
remaining input is returned. -/
def parseVal (fuel : Nat) (cs0 : List Char) : Option (JVal × List Char) :=
  match fuel with
  | 0 => none
  | fuel + 1 =>
    let cs := cs0.dropWhile jsonWs
    match cs with
    | [] => none
    | c :: t =>
      if c == '"' then
        match parseJStrLoop (t.length + 1) [] t with
        | some (s, r) => some (JVal.str s, r)
        | none => none
      else if c == lbrace then parseObjBody fuel (t.dropWhile jsonWs)
      else if c == '[' then parseArrBody fuel (t.dropWhile jsonWs)
      else if "true".data.isPrefixOf cs then some (JVal.jbool true, cs.drop 4)
      else if "false".data.isPrefixOf cs then some (JVal.jbool false, cs.drop 5)
      else if "null".data.isPrefixOf cs then some (JVal.null, cs.drop 4)
      else if "NaN".data.isPrefixOf cs then some (JVal.num "NaN", cs.drop 3)
      else if "Infinity".data.isPrefixOf cs then some (JVal.num "Infinity", cs.drop 8)
      else if "-Infinity".data.isPrefixOf cs then some (JVal.num "-Infinity", cs.drop 9)
      else if c == '-' || c.isDigit then
        match parseNumTok cs with
        | some (tok, r) => some (JVal.num tok, r)
        | none => none
      else none

def parseObjBody (fuel : Nat) (cs : List Char) : Option (JVal × List Char) :=
  match fuel with
  | 0 => none
  | fuel + 1 =>
    match cs with
    | c :: t => if c == rbrace then some (JVal.obj [], t) else parseMembers fuel [] cs
    | [] => none

def parseMembers (fuel : Nat) (acc : List (String × JVal)) (cs : List Char) :
    Option (JVal × List Char) :=
  match fuel with
  | 0 => none
  | fuel + 1 =>
    match cs with
    | c :: t =>
      if c == '"' then
        match parseJStrLoop (t.length + 1) [] t with
        | none => none
        | some (k, r1) =>
          match r1.dropWhile jsonWs with
          | ':' :: r3 =>
            match parseVal fuel r3 with
            | none => none
            | some (v, r4) =>
              let acc := jInsert acc k v
              match r4.dropWhile jsonWs with
              | ',' :: r6 => parseMembers fuel acc (r6.dropWhile jsonWs)
              | d :: r6 => if d == rbrace then some (JVal.obj acc, r6) else none
              | [] => none
          | _ => none
      else none
    | [] => none

def parseArrBody (fuel : Nat) (cs : List Char) : Option (JVal × List Char) :=
  match fuel with
  | 0 => none
  | fuel + 1 =>
    match cs with
    | c :: _ =>
      if c == ']' then some (JVal.arr [], cs.drop 1)
      else parseElems fuel [] cs
    | [] => none

def parseElems (fuel : Nat) (acc : List JVal) (cs : List Char) : Option (JVal × List Char) :=
  match fuel with
  | 0 => none
  | fuel + 1 =>
    match parseVal fuel cs with
    | none => none
    | some (v, r1) =>
      match r1.dropWhile jsonWs with
      | ',' :: r2 => parseElems fuel (acc ++ [v]) r2
      | ']' :: r2 => some (JVal.arr (acc ++ [v]), r2)
      | _ => none

end

/-- Model of `json.loads`: parse one value and require only whitespace after. -/
def parseJson (s : String) : Option JVal :=
  match parseVal (s.data.length + 8) s.data with
  | some (v, rest) => if (rest.dropWhile jsonWs).isEmpty then some v else none
  | none => none

/-! ### Regex models (character scanners with word-boundary semantics) -/

/-- Try regex alternatives in order at the current position; an alternative
matches if it is a prefix and the following character is not a word character
(the trailing `\b`).  Returns the matched text and the remaining input. -/
def altMatchHere (alts : List (List Char)) (cs : List Char) : Option (List Char × List Char) :=
  match alts with
  | [] => none
  | a :: rest =>
    if a.isPrefixOf cs && !(((cs.drop a.length).head?.map wordChar).getD false) then
      some (a, cs.drop a.length)
    else altMatchHere rest cs

/-- Generic `re.search`-style scan: try `matchAt` at every position whose
preceding character is not a word character (the leading `\b`; all patterns
below start with a word character). -/
def scanBool (matchAt : List Char → Bool) (prev : Option Char) (cs : List Char) : Bool :=
  match cs with
  | [] => false
  | c :: t =>
    (!((prev.map wordChar).getD false) && matchAt cs) || scanBool matchAt (some c) t

def yesAlts : List (List Char) :=
  ["yes", "yep", "yeah", "sure", "confirm", "go ahead", "proceed", "looks good",
   "create it", "do it"].map String.data

def noAlts : List (List Char) :=
  ["no", "nah", "stop", "cancel", "don" ++ aposS ++ "t", "dont", "hold", "wait"].map String.data

/-- `YES_RE.search` (case-insensitive). -/
def is_affirmative (text : String) : Bool :=
  scanBool (fun cs => (altMatchHere yesAlts cs).isSome) none (lowerChars text.data)

/-- `NO_RE.search` (case-insensitive). -/
def is_negative (text : String) : Bool :=
  scanBool (fun cs => (altMatchHere noAlts cs).isSome) none (lowerChars text.data)

def noEmailPrefixes : List (List Char) :=
  [("don" ++ aposS ++ "t"), "do not", "no", "skip"].map String.data ++ ["dont".data]

/-- Matcher for `NO_EMAIL_RE` at the current position:
`(don'?t|do not|no|skip)\s+email\b`. -/
def noEmailAt (cs : List Char) : Bool :=
  noEmailPrefixes.any (fun a =>
    a.isPrefixOf cs &&
    (let rest := cs.drop a.length
     ((rest.head?.map spaceChar).getD false) &&
     (let rest2 := rest.dropWhile spaceChar
      "email".data.isPrefixOf rest2 &&
      !(((rest2.drop 5).head?.map wordChar).getD false))))

/-- `NO_EMAIL_RE.search` on the lowercased message. -/
def wants_no_email (text : String) : Bool :=
  scanBool noEmailAt none (lowerChars text.data)

/-- Characters of the `[\w.-]` class of `EMAIL_RE`. -/
def emailClass (c : Char) : Bool := wordChar c || c == '.' || c == '-'

/-- Index of the last `.` in `dom` that is followed by a word character (and is
not the first character): the split point the regex backtracking of
`[\w.-]+\.\w+` ends up choosing. -/
def lastGoodDot (dom : List Char) : Option Nat :=
  let idxs := (List.range dom.length).filter (fun k =>
    1 ≤ k && dom.getD k ' ' == '.' && wordChar (dom.getD (k + 1) ' '))
  idxs.getLast?

/-- `EMAIL_RE` (`[\w.-]+@[\w.-]+\.\w+`) matched greedily at the current
position.  Returns the match and the remaining input. -/
def matchEmailAt (cs : List Char) : Option (List Char × List Char) :=
  let lp := cs.takeWhile emailClass
  if lp.isEmpty then none
  else
    match cs.drop lp.length with
    | '@' :: r1 =>
      let dom := r1.takeWhile emailClass
      match lastGoodDot dom with
      | none => none
      | some k =>
        let tail := (dom.drop (k + 1)).takeWhile wordChar
        some (lp ++ '@' :: (dom.take k ++ '.' :: tail),
              cs.drop (lp.length + 1 + k + 1 + tail.length))
    | _ => none

/-- `EMAIL_RE.findall`: leftmost matches, scanning resumes after each match. -/
def findEmailsAux (fuel : Nat) (cs : List Char) (acc : List String) : List String :=
  match fuel with
  | 0 => acc.reverse
  | fuel + 1 =>
    match cs with
    | [] => acc.reverse
    | _ :: t =>
      match matchEmailAt cs with
      | some (m, rest) => findEmailsAux fuel rest (String.mk m :: acc)
      | none => findEmailsAux fuel t acc

def findEmails (text : String) : List String :=
  findEmailsAux (text.data.length + 1) text.data []

/-- `URL_RE` (`https?://\S+`) matched at the current position. -/
def matchUrlAt (cs : List Char) : Option (List Char) :=
  if "https://".data.isPrefixOf cs then
    if ((cs.drop 8).takeWhile (fun c => !spaceChar c)).isEmpty then none
    else some ("https://".data ++ (cs.drop 8).takeWhile (fun c => !spaceChar c))
  else if "http://".data.isPrefixOf cs then
    if ((cs.drop 7).takeWhile (fun c => !spaceChar c)).isEmpty then none
    else some ("http://".data ++ (cs.drop 7).takeWhile (fun c => !spaceChar c))
  else none

/-- `URL_RE.search`: first match in the text. -/
def findFirstUrlAux : List Char → Option String
  | [] => none
  | c :: t =>
    match matchUrlAt (c :: t) with
    | some m => some (String.mk m)
    | none => findFirstUrlAux t

def findFirstUrl (text : String) : Option String := findFirstUrlAux text.data

def tzAbbrAlts : List (List Char) :=
  ["pdt", "pst", "pt", "mdt", "mst", "mt", "cdt", "cst", "ct", "edt", "est", "et"].map
    String.data

/-- `re.findall` of the timezone-abbreviation alternation (case-insensitive,
word-boundary on both sides); tokens are returned lowercased, scanning resumes
after each match. -/
def findTzAbbrsAux (fuel : Nat) (prev : Option Char) (cs : List Char) (acc : List String) :
    List String :=
  match fuel with
  | 0 => acc.reverse
  | fuel + 1 =>
    match cs with
    | [] => acc.reverse
    | c :: t =>
      if !((prev.map wordChar).getD false) then
        match altMatchHere tzAbbrAlts cs with
        | some (m, rest) =>
          findTzAbbrsAux fuel (some (m.getLastD 't')) rest (String.mk m :: acc)
        | none => findTzAbbrsAux fuel (some c) t acc
      else findTzAbbrsAux fuel (some c) t acc

def findTzAbbrs (text : String) : List String :=
  findTzAbbrsAux (text.data.length + 1) none (lowerChars text.data) []

/-- `TZ_WORDS` (a Python dict; iteration follows insertion order). -/
def TZ_WORDS : List (String × String) :=
  [("pacific", "America/Los_Angeles"), ("mountain", "America/Denver"),
   ("central", "America/Chicago"), ("eastern", "America/New_York")]

/-- `TZ_ABBR` lookup table. -/
def TZ_ABBR : List (String × String) :=
  [("PT", "America/Los_Angeles"), ("PST", "America/Los_Angeles"), ("PDT", "America/Los_Angeles"),
   ("MT", "America/Denver"), ("MST", "America/Denver"), ("MDT", "America/Denver"),
   ("CT", "America/Chicago"), ("CST", "America/Chicago"), ("CDT", "America/Chicago"),
   ("ET", "America/New_York"), ("EST", "America/New_York"), ("EDT", "America/New_York")]

def lookupAssoc (m : List (String × String)) (k : String) : Option String :=
  match m with
  | [] => none
  | (k', v) :: t => if k' == k then some v else lookupAssoc t k

/-- `_detect_tz_tokens`: word list first (substring containment on the
lowercased text, dict order); otherwise the last abbreviation occurrence. -/
def _detect_tz_tokens (text : String) : Option String :=
  let t := String.mk (lowerChars text.data)
  match TZ_WORDS.find? (fun p => strSub p.1 t) with
  | some p => some p.2
  | none =>
    match (findTzAbbrs text).getLast? with
    | none => none
    | some tok => lookupAssoc TZ_ABBR (upperStr tok)

/-- Matcher for `\bwith\s+([A-Z][a-zA-Z]+)\b` at the current position,
returning the captured name. -/
def cheapTitleAt (cs : List Char) : Option String :=
  if "with".data.isPrefixOf cs then
    let r := cs.drop 4
    if (r.head?.map spaceChar).getD false then
      match r.dropWhile spaceChar with
      | c :: t =>
        if c.isUpper then
          let ls := t.takeWhile Char.isAlpha
          if ls.isEmpty then none
          else if ((t.drop ls.length).head?.map wordChar).getD false then none
          else some (String.mk (c :: ls))
        else none
      | [] => none
    else none
  else none

def cheapTitleFind (prev : Option Char) : List Char → Option String
  | [] => none
  | c :: t =>
    if !((prev.map wordChar).getD false) then
      match cheapTitleAt (c :: t) with
      | some n => some n
      | none => cheapTitleFind (some c) t
    else cheapTitleFind (some c) t

/-- `_cheap_title`: "Meeting with {Name}" or "Meeting". -/
def _cheap_title (text : String) : String :=
  match cheapTitleFind none text.data with
  | some n => "Meeting with " ++ n
  | none => "Meeting"

def availKw1 : List (List Char) := ["check", "verify", "see"].map String.data

def availKw2 : List (List Char) := ["avail", "availability", "free", "busy"].map String.data

/-- Scan for the second keyword group of `wants_check_availability`; `.*` does
not cross a newline, so the scan stops at the first `\n`. -/
def scanAvailKw2 (prev : Option Char) : List Char → Bool
  | [] => false
  | c :: t =>
    if c == '\n' then false
    else
      (!((prev.map wordChar).getD false) && (altMatchHere availKw2 (c :: t)).isSome) ||
        scanAvailKw2 (some c) t

/-- Matcher for `\bam i (free|busy)\b` at the current position. -/
def amIFreeAt (cs : List Char) : Bool :=
  ("am i free".data.isPrefixOf cs && !(((cs.drop 9).head?.map wordChar).getD false)) ||
  ("am i busy".data.isPrefixOf cs && !(((cs.drop 9).head?.map wordChar).getD false))

/-- `wants_check_availability` over the lowercased text. -/
def wants_check_availability (text : String) : Bool :=
  let t := lowerChars text.data
  scanBool
    (fun cs =>
      match altMatchHere availKw1 cs with
      | some (m, rest) => scanAvailKw2 (some (m.getLastD 'k')) rest
      | none => false)
    none t
  || scanBool amIFreeAt none t

/-! ### Datetime model (`dateutil.parser.parse` on ISO-8601 shaped input) -/

structure PyDateTime where
  year : Nat
  month : Nat
  day : Nat
  hour : Nat
  minute : Nat
  second : Nat
  offset : Option Int   -- minutes east of UTC; `none` = naive
deriving Repr, DecidableEq

def isLeap (y : Nat) : Bool := (y % 4 == 0 && y % 100 != 0) || y % 400 == 0

def daysInMonth (y m : Nat) : Nat :=
  if m == 2 then (if isLeap y then 29 else 28)
  else if m == 4 || m == 6 || m == 9 || m == 11 then 30
  else 31

/-- Proleptic-Gregorian day count (valid for year ≥ 1; only differences and
comparisons of the count are ever used). -/
def daysFromCivil (y m d : Nat) : Nat :=
  let y' := if m ≤ 2 then y - 1 else y
  let era := y' / 400
  let yoe := y' % 400
  let mp := if m > 2 then m - 3 else m + 9
  let doy := (153 * mp + 2) / 5 + (d - 1)
  let doe := yoe * 365 + yoe / 4 - yoe / 100 + doy
  era * 146097 + doe

/-- Absolute timeline key (seconds) of a datetime; a naive datetime is
interpreted at the configured default offset, mirroring `_parse_dt`'s
`replace(tzinfo=gettz(DEFAULT_TZ))`. -/
def dtKey (defaultOffsetMin : Int) (dt : PyDateTime) : Int :=
  (daysFromCivil dt.year dt.month dt.day : Int) * 86400
    + ((dt.hour * 3600 + dt.minute * 60 + dt.second : Nat) : Int)
    - 60 * (dt.offset.getD defaultOffsetMin)

def takeDigits (n : Nat) (cs : List Char) : Option (Nat × List Char) :=
  let ds := cs.take n
  if ds.length == n && ds.all Char.isDigit then
    some (ds.foldl (fun a c => a * 10 + (c.toNat - 48)) 0, cs.drop n)
  else none

/-- UTC-offset suffix: `Z`, `±HH:MM`, `±HHMM` or `±HH`. -/
def parseOffset (cs : List Char) : Option (Int × List Char) :=
  match cs with
  | [] => none
  | 'Z' :: t => some (0, t)
  | c :: t =>
    if c == '+' || c == '-' then
      match takeDigits 2 t with
      | none => none
      | some (h, r1) =>
        let sgn : Int := if c == '-' then -1 else 1
        match r1 with
        | ':' :: r2 =>
          match takeDigits 2 r2 with
          | some (m, r3) => some (sgn * (h * 60 + m), r3)
          | none => none
        | _ =>
          match takeDigits 2 r1 with
          | some (m, r3) => some (sgn * (h * 60 + m), r3)
          | none => some (sgn * (h * 60), r1)
    else none

def parseTimePart (y m d : Nat) (cs : List Char) : Option PyDateTime :=
  match takeDigits 2 cs with
  | none => none
  | some (hh, r1) =>
    match r1 with
    | ':' :: r2 =>
      match takeDigits 2 r2 with
      | none => none
      | some (mi, r3) =>
        let contSec : Option (Nat × List Char) :=
          match r3 with
          | ':' :: r4 =>
            match takeDigits 2 r4 with
            | some (ss, r5) => some (ss, r5)
            | none => none
          | _ => some (0, r3)
        match contSec with
        | none => none
        | some (ss, r5) =>
          if hh ≤ 23 && mi ≤ 59 && ss ≤ 59 then
            match r5 with
            | [] => some ⟨y, m, d, hh, mi, ss, none⟩
            | _ =>
              match parseOffset r5 with
              | some (off, []) => some ⟨y, m, d, hh, mi, ss, some off⟩
              | _ => none
          else none
    | _ => none

/-- Model of `dateutil.parser.parse` restricted to ISO-8601 shaped strings
(`YYYY-MM-DD`, optionally `T`/space and `HH:MM[:SS]`, optionally an offset).
`dateutil` accepts far more formats; every claim proved below is insensitive
to which exact strings parse. -/
def parsePyDT (s : String) : Option PyDateTime :=
  match takeDigits 4 s.data with
  | some (y, '-' :: r1) =>
    match takeDigits 2 r1 with
    | some (m, '-' :: r2) =>
      match takeDigits 2 r2 with
      | some (d, r3) =>
        if 1 ≤ y && 1 ≤ m && m ≤ 12 && 1 ≤ d && d ≤ daysInMonth y m then
          match r3 with
          | [] => some ⟨y, m, d, 0, 0, 0, none⟩
          | c :: t =>
            if c == 'T' || c == ' ' then parseTimePart y m d t else none
        else none
      | _ => none
    | _ => none
  | _ => none

/-- `datetime.isoformat(timespec="seconds")`. -/
def isoformatSec (dt : PyDateTime) : String :=
  pad4 dt.year ++ "-" ++ pad2 dt.month ++ "-" ++ pad2 dt.day ++ "T" ++
  pad2 dt.hour ++ ":" ++ pad2 dt.minute ++ ":" ++ pad2 dt.second ++
  (match dt.offset with
   | none => ""
   | some o =>
     (if o < 0 then "-" else "+") ++ pad2 (o.natAbs / 60) ++ ":" ++ pad2 (o.natAbs % 60))

/-! ### Data model: settings, results, session state, oracles -/

/-- Configuration surface (`app/config.py` / `DEFAULT_TZ`).  `defaultOffsetMin`
models `tz.gettz(default_timezone)` as a fixed UTC offset. -/
structure Settings where
  default_timezone : String
  defaultOffsetMin : Int
  gmail_from : String
deriving Repr, DecidableEq

/-- Python exceptions that can escape the embedded functions. -/
inductive PyErr where
  | attributeError (msg : String)
  | typeError (msg : String)
  | validationError (msg : String)
deriving Repr, DecidableEq

def pyErrStr : PyErr → String
  | .attributeError m => m
  | .typeError m => m
  | .validationError m => m

/-- The fixed-key slot dictionary created by `_new_session`; values are
arbitrary Python/JSON values (the `set` action stores them unchecked). -/
structure Slots where
  title : JVal
  start_iso : JVal
  end_iso : JVal
  timezone : JVal
  attendees : JVal
  location : JVal
  description : JVal
  recurrence : JVal
  link : JVal
deriving Inhabited

def SLOT_KEYS : List String :=
  ["title", "start_iso", "end_iso", "timezone", "attendees", "location", "description",
   "recurrence", "link"]

def Slots.get (s : Slots) : String → Option JVal
  | "title" => some s.title
  | "start_iso" => some s.start_iso
  | "end_iso" => some s.end_iso
  | "timezone" => some s.timezone
  | "attendees" => some s.attendees
  | "location" => some s.location
  | "description" => some s.description
  | "recurrence" => some s.recurrence
  | "link" => some s.link
  | _ => none

def Slots.set (s : Slots) (k : String) (v : JVal) : Slots :=
  match k with
  | "title" => { s with title := v }
  | "start_iso" => { s with start_iso := v }
  | "end_iso" => { s with end_iso := v }
  | "timezone" => { s with timezone := v }
  | "attendees" => { s with attendees := v }
  | "location" => { s with location := v }
  | "description" => { s with description := v }
  | "recurrence" => { s with recurrence := v }
  | "link" => { s with link := v }
  | _ => s

def sget (s : Slots) (k : String) : JVal := (s.get k).getD JVal.null

/-- Shape of `CalendarClient.create_event`'s result `data` field. -/
structure CalData where
  id : Option String
  link : Option String
deriving Repr, DecidableEq

/-- `{ok, data?, error?}` result dict of the Calendar collaborator (always a
non-empty dict, hence always truthy). -/
structure CalResult where
  ok : Bool
  data : Option CalData
  error : Option String
deriving Repr, DecidableEq

/-- `{ok, data: {id}?, error?}` result dict of the Gmail collaborator. -/
structure EmailResult where
  ok : Bool
  dataId : Option String
  error : Option String
deriving Repr, DecidableEq

structure BusyInterval where
  start : Option String
  stop : Option String
deriving Repr, DecidableEq

structure Msg where
  role : String
  content : String
deriving Repr, DecidableEq

/-- Per-session `AgentState` (TypedDict, total=False: absent optional keys are
`none`; `reply`, `new_user_message`, `awaiting_confirm`, `confirm_summary` are
always present once a session exists). -/
structure AgentState where
  slots : Slots
  history : List Msg
  busy : Option (List BusyInterval)
  created_event : Option CalResult
  email_result : Option EmailResult
  reply : String
  new_user_message : String
  awaiting_confirm : Bool
  confirm_summary : String
deriving Inhabited

/-- An update dictionary returned by a tool / the policy node; `none` = key not
present in the returned dict. -/
structure Updates where
  busy : Option (List BusyInterval) := none
  created_event : Option CalResult := none
  email_result : Option EmailResult := none
  reply : Option String := none
  awaiting_confirm : Option Bool := none
  confirm_summary : Option String := none
deriving Inhabited

/-- `state.update(updates)`. -/
def applyUpd (st : AgentState) (u : Updates) : AgentState :=
  { st with
    busy := match u.busy with | some b => some b | none => st.busy
    created_event := match u.created_event with | some c => some c | none => st.created_event
    email_result := match u.email_result with | some r => some r | none => st.email_result
    reply := u.reply.getD st.reply
    awaiting_confirm := u.awaiting_confirm.getD st.awaiting_confirm
    confirm_summary := u.confirm_summary.getD st.confirm_summary }

/-- Responses the external collaborators give for the current turn. -/
structure Oracle where
  llmRaw : String
  calCreate : CalResult
  calBusy : List BusyInterval
  gmailSend : EmailResult

/-- One external collaborator invocation, recorded with the state observed at
the call site (`createCall` records `awaiting_confirm` at tool entry). -/
inductive TurnEvent where
  | busyCall
  | createCall (awaiting : Bool)
  | emailCall
deriving Repr, DecidableEq

/-- The `data` dict of a `/agent/chat` response. -/
structure ChatData where
  event : Option CalResult
  email : Option EmailResult
deriving Repr, DecidableEq

/-- `ChatOut` response model (`session_id` omitted: it is echoed verbatim). -/
structure ChatOut where
  reply : String
  slots : Slots
  done : Bool
  data : Option ChatData
deriving Inhabited

/-! ### Helper functions of `server.py` -/

/-- `_parse_dt`: parse, attaching the default zone if naive. -/
def _parse_dt (cfg : Settings) (s : String) : Option PyDateTime :=
  match parsePyDT s with
  | none => none
  | some dt => some { dt with offset := some (dt.offset.getD cfg.defaultOffsetMin) }

def normalizeOne (v : JVal) : JVal :=
  match v with
  | .str s =>
    if s != "" then
      match parsePyDT s with
      | some dt => .str (isoformatSec dt)
      | none => v
    else v
  | _ => v

/-- `_normalize_times`: best-effort ISO rewrite, then default the timezone
(which the rewrite step does not touch). -/
def _normalize_times (cfg : Settings) (s : Slots) : Slots :=
  if jTruthy s.timezone then
    { s with start_iso := normalizeOne s.start_iso, end_iso := normalizeOne s.end_iso }
  else
    { s with start_iso := normalizeOne s.start_iso, end_iso := normalizeOne s.end_iso,
             timezone := .str cfg.default_timezone }

def REQUIRED : List String := ["title", "start_iso", "end_iso", "timezone"]

def ordLabel : String := "end_iso (must be after start_iso)"

/-- The `sdt >= edt` check of `_missing`: both times present, strings,
parseable, and start not before end. -/
def ordViolation (cfg : Settings) (s : Slots) : Bool :=
  match s.start_iso, s.end_iso with
  | .str si, .str ei =>
    if si != "" && ei != "" then
      match _parse_dt cfg si, _parse_dt cfg ei with
      | some sdt, some edt =>
        decide (dtKey cfg.defaultOffsetMin edt ≤ dtKey cfg.defaultOffsetMin sdt)
      | _, _ => false
    else false
  | _, _ => false

/-- `_missing`: absent/empty required fields, plus the ordering label when both
times are present, strings, parseable, and start >= end. -/
def _missing (cfg : Settings) (s : Slots) : List String :=
  (REQUIRED.filter (fun k => !jTruthy (sget s k))) ++
    (if ordViolation cfg s then [ordLabel] else [])

/-- Iterate a Python value producing the `.lower()` of each item (used for the
`seen` set over current attendees). -/
def lowerItems : List JVal → Except PyErr (List String)
  | [] => .ok []
  | .str s :: t => (lowerItems t).map (fun r => lowerStr s :: r)
  | _ :: _ => .error (.attributeError "lower")

def iterLower : JVal → Except PyErr (List String)
  | .arr xs => lowerItems xs
  | .str s => .ok (s.data.map (fun c => String.singleton c.toLower))
  | .obj fs => .ok (fs.map (fun p => lowerStr p.1))
  | _ => .error (.typeError "object is not iterable")

/-- The attendee-append loop of `_preextract_slots`: `seen` is computed once and
not updated inside the loop; appending to a non-list raises. -/
def appendEmails (emails : List String) (seen : List String) (att : JVal) :
    Except PyErr JVal :=
  match emails with
  | [] => .ok att
  | e :: rest =>
    if seen.contains (lowerStr e) then appendEmails rest seen att
    else
      match att with
      | .arr xs => appendEmails rest seen (.arr (xs ++ [.str e]))
      | _ => .error (.attributeError "append")

/-- Attendee step of `_preextract_slots`: compute `seen` from current
attendees (empty list substituted for a falsy value) and append unseen emails. -/
def attStep (emails : List String) (att : JVal) : Except PyErr JVal :=
  if emails.isEmpty then .ok att
  else
    match iterLower (if jTruthy att then att else .arr []) with
    | .error e => .error e
    | .ok seen => appendEmails emails seen att

/-- Link step of `_preextract_slots`: first URL, only if `link` is unset. -/
def linkStep (text : String) (s : Slots) : Slots :=
  if !jTruthy s.link then
    match findFirstUrl text with
    | some u => { s with link := .str u }
    | none => s
  else s

/-- Timezone-hint step of `_preextract_slots`. -/
def tzStep (text : String) (s : Slots) : Slots :=
  match _detect_tz_tokens text with
  | some z => { s with timezone := .str z }
  | none => s

/-- Slot-level body of `_preextract_slots` (the message is already known to be
non-empty). -/
def preextractSlots (text : String) (s : Slots) : Except PyErr Slots :=
  match attStep (findEmails text) s.attendees with
  | .error e => .error e
  | .ok att' => .ok (tzStep text (linkStep text { s with attendees := att' }))

/-- `_preextract_slots`: emails, first URL (only if `link` unset), tz hint. -/
def _preextract_slots (st : AgentState) : Except PyErr AgentState :=
  if st.new_user_message == "" then .ok st
  else
    match preextractSlots st.new_user_message st.slots with
    | .error e => .error e
    | .ok s' => .ok { st with slots := s' }

def strItems : List JVal → Except PyErr (List String)
  | [] => .ok []
  | .str s :: t => (strItems t).map (s :: ·)
  | _ :: _ => .error (.typeError "sequence item: expected str instance")

/-- `", ".join(v)` over a Python value. -/
def pyJoinComma : JVal → Except PyErr String
  | .arr xs => (strItems xs).map joinComma
  | .str s => .ok (joinComma (s.data.map String.singleton))
  | .obj fs => .ok (joinComma (fs.map (fun p => p.1)))
  | _ => .error (.typeError "can only join an iterable")

/-- `_build_confirm_summary`: deterministic template rendering. -/
def _build_confirm_summary (cfg : Settings) (s : Slots) : Except PyErr String :=
  let title := if jTruthy s.title then pyStr s.title else "Untitled"
  let start := if jTruthy s.start_iso then pyStr s.start_iso else "?"
  let stop := if jTruthy s.end_iso then pyStr s.end_iso else "?"
  let tzid := if jTruthy s.timezone then pyStr s.timezone else cfg.default_timezone
  match (if jTruthy s.attendees then pyJoinComma s.attendees else .ok "") with
  | .error e => .error e
  | .ok joined =>
    let attendees := if joined == "" then "none" else joined
    let loc := if jTruthy s.location then ", location: " ++ pyStr s.location else ""
    let link := if jTruthy s.link then ", link: " ++ pyStr s.link else ""
    .ok ("Create “" ++ title ++ "” from " ++ start ++ " to " ++ stop ++ " (" ++ tzid ++
         ") with attendees [" ++ attendees ++ "]" ++ loc ++ link ++ "? (yes/no)")

/-! ### Collaborator clients (`calendar_service.py`, `gmail_service.py`) -/

/-- Members resolvable on a `CalendarClient` instance: `__init__` assigns only
`self._auth`; the class defines `_svc`, `create_event`, `get_busy`.  No code
ever assigns `self.service`. -/
def calendarClientMembers : List String := ["_auth", "_svc", "create_event", "get_busy"]

def calSvcAttrMsg : String :=
  aposS ++ "CalendarClient" ++ aposS ++ " object has no attribute " ++ aposS ++ "service" ++ aposS

/-- `CalendarClient.get_busy`: looks up `self.service` before doing anything
else; on success it would run the freebusy query (the oracle's `calBusy`).
The returned trace records whether the Calendar collaborator was reached. -/
def CalendarClient.get_busy (o : Oracle) (_si _ei _tz : JVal) :
    Except PyErr (List BusyInterval) × List TurnEvent :=
  if calendarClientMembers.contains "service" then (.ok o.calBusy, [.busyCall])
  else (.error (.attributeError calSvcAttrMsg), [])

/-- `GmailClient.send`: empty sender short-circuits before the message is
built; joining a recipient list containing non-strings raises; otherwise the
Gmail collaborator's result is returned (the subject and body only flow into
the sent message). -/
def GmailClient.send (cfg : Settings) (o : Oracle) (recipients : JVal)
    (_subject _bodyText : String) : Except PyErr EmailResult :=
  if cfg.gmail_from == "" then .ok { ok := false, dataId := none, error := some "GMAIL_FROM not set" }
  else
    match pyJoinComma recipients with
    | .error e => .error e
    | .ok _ => .ok o.gmailSend

/-! ### Tool executors -/

/-- `tool_check_availability`: requires start/end/timezone truthy; every
exception from the client is caught and embedded in the reply. -/
def tool_check_availability (o : Oracle) (st : AgentState) : Updates × List TurnEvent :=
  if !(jTruthy st.slots.start_iso && jTruthy st.slots.end_iso && jTruthy st.slots.timezone) then
    ({ reply := some "I need start time, end time, and timezone to check availability." }, [])
  else
    match CalendarClient.get_busy o st.slots.start_iso st.slots.end_iso st.slots.timezone with
    | (.ok busy, tr) =>
      if !busy.isEmpty then
        ({ busy := some busy, reply := some "That time conflicts with another event." }, tr)
      else ({ busy := some [], reply := some ("You" ++ aposS ++ "re free at that time.") }, tr)
    | (.error e, tr) => ({ reply := some ("Availability check failed: " ++ pyErrStr e) }, tr)

/-- Approximation of pydantic's `EmailStr` syntax check (claims only need that
ordinary `local@domain.tld` strings pass). -/
def validEmailStr (s : String) : Bool :=
  match splitOnChar '@' s.data with
  | [lp, dom] =>
    !lp.isEmpty && (splitOnChar '.' dom).length ≥ 2 &&
    (splitOnChar '.' dom).all (fun p => !p.isEmpty && p.all (fun c => c.isAlphanum || c == '-'))
  | _ => false

/-- `EventIn(...)` pydantic validation performed inside `tool_create_event`. -/
def eventInValidate (s : Slots) (desc : JVal) : Except PyErr Unit :=
  match s.title with
  | .str t =>
    if t.length < 1 then .error (.validationError "title")
    else
      match s.start_iso, s.end_iso, s.timezone with
      | .str _, .str _, .str _ =>
        let attStep : Except PyErr Unit :=
          if !jTruthy s.attendees then .ok ()
          else
            match s.attendees with
            | .arr xs =>
              match strItems xs with
              | .error _ => .error (.validationError "attendees")
              | .ok ss => if ss.all validEmailStr then .ok () else .error (.validationError "attendees")
            | _ => .error (.validationError "attendees")
        match attStep with
        | .error e => .error e
        | .ok _ =>
          let optStr : JVal → Except PyErr Unit := fun v =>
            match v with
            | .null => .ok ()
            | .str _ => .ok ()
            | _ => .error (.validationError "optional str field")
          match optStr s.location with
          | .error e => .error e
          | .ok _ =>
            match (if jTruthy desc then optStr desc else .ok ()) with
            | .error e => .error e
            | .ok _ => optStr s.recurrence
      | _, _, _ => .error (.validationError "time fields must be str")
  | _ => .error (.validationError "title")

/-- The description with a "Link: …" line appended when a link slot is set and
not already mentioned (`desc.lower()` raises on a truthy non-string). -/
def descWithLink (s : Slots) : Except PyErr JVal :=
  if jTruthy s.link then
    match (if jTruthy s.description then s.description else .str "") with
    | .str d =>
      if strSub "link" (lowerStr d) then .ok (JVal.str d)
      else .ok (JVal.str ((if d != "" then d ++ "\n" else "") ++ "Link: " ++ pyStr s.link))
    | _ => .error (.attributeError "lower")
  else .ok (if jTruthy s.description then s.description else .str "")

/-- The link preferred from a Calendar-collaborator result:
`(created.get("data", {}) or {}).get("link") or created.get("htmlLink") or
(created.get("data", {}) or {}).get("htmlLink")` — the `htmlLink` keys are
absent from the collaborator's result shape. -/
def createdLink (r : CalResult) : Option String :=
  match r.data with
  | some d =>
    match d.link with
    | some l => if l != "" then some l else none
    | none => none
  | none => none

/-- `tool_create_event`: re-validate, append a Link line to the description,
call the Calendar collaborator, prefer its returned link, store the result.
The trace records `awaiting_confirm` as observed at tool entry when the
collaborator is actually called. -/
def tool_create_event (cfg : Settings) (o : Oracle) (st : AgentState) :
    Except PyErr (Updates × Slots × List TurnEvent) :=
  if (_missing cfg st.slots).isEmpty then
    match descWithLink st.slots with
    | .error e => .error e
    | .ok desc =>
      match eventInValidate st.slots desc with
      | .error e => .error e
      | .ok _ =>
        .ok ({ created_event := some o.calCreate, reply := some "Event created." },
             (match createdLink o.calCreate with
              | some l => { st.slots with link := .str l }
              | none => st.slots),
             [.createCall st.awaiting_confirm])
  else
    .ok ({ reply := some ("Still missing: " ++ joinComma (_missing cfg st.slots) ++ ".") },
         st.slots, [])

/-- `link = ev.data.link or ev.htmlLink or slots.link or ""` as used when
composing the invite email. -/
def emailLinkVal (s : Slots) (ev : CalResult) : JVal :=
  match createdLink ev with
  | some l => .str l
  | none => if jTruthy s.link then s.link else .str ""

/-- Subject and body composed for the invite email (flows only into the sent
message). -/
def inviteEmailText (s : Slots) (ev : CalResult) : String × String :=
  ("Invite: " ++ pyStr s.title,
   "You" ++ aposS ++ "re invited to " ++ aposS ++ pyStr s.title ++ aposS ++ ".\n" ++
   "Start: " ++ pyStr s.start_iso ++ "\nEnd: " ++ pyStr s.end_iso ++
   "\nTimezone: " ++ pyStr s.timezone ++ "\n" ++
   (if jTruthy (emailLinkVal s ev) then "Link: " ++ pyStr (emailLinkVal s ev) else ""))

/-- `tool_send_email`: no-op replies unless confirmed, an event exists, and
there are attendees; otherwise compose and send. -/
def tool_send_email (cfg : Settings) (o : Oracle) (st : AgentState) (yes : Bool) :
    Except PyErr (Updates × List TurnEvent) :=
  if !yes then .ok ({ reply := some "Okay, no email sent." }, [])
  else
    match st.created_event with
    | none => .ok ({ reply := some ("I couldn" ++ aposS ++ "t find the event I just created.") }, [])
    | some ev =>
      if !jTruthy (if jTruthy st.slots.attendees then st.slots.attendees else .arr []) then
        .ok ({ reply := some "Event created. (No attendees to email.)" }, [])
      else
        match GmailClient.send cfg o
            (if jTruthy st.slots.attendees then st.slots.attendees else .arr [])
            (inviteEmailText st.slots ev).1 (inviteEmailText st.slots ev).2 with
        | .error e => .error e
        | .ok result =>
          .ok ({ email_result := some result, reply := some "Event created and email sent." },
               [.emailCall])

/-! ### Policy step (`decide_and_act`) and the chat turn (`agent_chat`) -/

/-- Slice the stripped completion output between the first brace and the last
closing brace and decode it as a JSON object (`json.loads`); `none` models the
exception path of the `try` block. -/
def decodedDecision (rawStripped : String) : Option (List (String × JVal)) :=
  let cs := rawStripped.data
  match cs.findIdx? (· == lbrace), cs.reverse.findIdx? (· == rbrace) with
  | some i, some jr =>
    let j := cs.length - 1 - jr
    let slice := (cs.drop i).take (j + 1 - i)
    match parseJson (String.mk slice) with
    | some (.obj fs) => some fs
    | _ => none
  | _, _ => none

/-- `(decision.get("action") or "").lower()`: a truthy non-string raises. -/
def extractAction (dec : List (String × JVal)) : Except PyErr String :=
  match jGet dec "action" with
  | none => .ok ""
  | some v =>
    if jTruthy v then
      match v with
      | .str s => .ok (lowerStr s)
      | _ => .error (.attributeError "lower")
    else .ok ""

/-- `decision.get("args") or {}`. -/
def extractArgs (dec : List (String × JVal)) : JVal :=
  match jGet dec "args" with
  | none => .obj []
  | some v => if jTruthy v then v else .obj []

/-- `args.get(k)`: raises on a non-dict `args`. -/
def argGet (args : JVal) (k : String) : Except PyErr (Option JVal) :=
  match args with
  | .obj fs => .ok (jGet fs k)
  | _ => .error (.attributeError "get")

/-- `args.get(k) or default` flowing into a string response field (a truthy
non-string would fail response validation). -/
def argStrOr (args : JVal) (k : String) (dflt : String) : Except PyErr String :=
  match argGet args k with
  | .error e => .error e
  | .ok none => .ok dflt
  | .ok (some v) =>
    if jTruthy v then
      match v with
      | .str s => .ok s
      | _ => .error (.validationError "reply must be a string")
    else .ok dflt

/-- `args.get(k, default)` flowing into a string response field. -/
def argStrGetDefault (args : JVal) (k : String) (dflt : String) : Except PyErr String :=
  match argGet args k with
  | .error e => .error e
  | .ok none => .ok dflt
  | .ok (some (.str s)) => .ok s
  | .ok (some _) => .error (.validationError "reply must be a string")

/-- The `set` action loop: recognized slot keys with values outside
`(None, "", [])` overwrite the slot. -/
def applySetArgs (s : Slots) : List (String × JVal) → Slots
  | [] => s
  | (k, v) :: t =>
    let s := if SLOT_KEYS.contains k && !jExcludedSetVal v then Slots.set s k v else s
    applySetArgs s t

/-!
`decide_and_act` and `agent_chat`, decomposed into named steps (same control
flow as the source; the decomposition only aids the proofs).
-/

/-- Shared tail of the `set` action and of the parse-failure fallback
(lines 296–300 and 313–316 of `server.py` are identical): validate, then
either list the gaps or transition to `awaiting_confirm` with the rendered
summary. -/
def fallbackTitled (cfg : Settings) (st3 : AgentState) :
    Except PyErr (AgentState × Updates × List TurnEvent) :=
  if (_missing cfg st3.slots).isEmpty then
    match _build_confirm_summary cfg st3.slots with
    | .error e => .error e
    | .ok summary =>
      .ok (st3, { awaiting_confirm := some true, confirm_summary := some summary,
                  reply := some summary }, [])
  else
    .ok (st3, { reply := some ("Missing: " ++ joinComma (_missing cfg st3.slots) ++ ".") }, [])

/-- Parse-failure fallback: synthesize a cheap title when unset, then
validate-or-confirm. -/
def fallbackStep (cfg : Settings) (st2 : AgentState) :
    Except PyErr (AgentState × Updates × List TurnEvent) :=
  if jTruthy st2.slots.title then fallbackTitled cfg st2
  else
    fallbackTitled cfg { st2 with slots := { st2.slots with
      title := .str (_cheap_title
        (if st2.new_user_message != "" then st2.new_user_message else "Meeting")) } }

/-- `confirm` transition with the freshly rendered summary. -/
def confirmBuilt (cfg : Settings) (st2 : AgentState) :
    Except PyErr (AgentState × Updates × List TurnEvent) :=
  match _build_confirm_summary cfg st2.slots with
  | .error e => .error e
  | .ok summary =>
    .ok (st2, { awaiting_confirm := some true, confirm_summary := some summary,
                reply := some summary }, [])

/-- The action dispatch table of `decide_and_act` (slots already pre-extracted
and normalized into `st2`). -/
def dispatchAction (cfg : Settings) (o : Oracle) (st2 : AgentState) (action : String)
    (args : JVal) : Except PyErr (AgentState × Updates × List TurnEvent) :=
  if action == "ask" then
    match argStrOr args "question" "What should I provide next?" with
    | .error e => .error e
    | .ok q => .ok (st2, { reply := some q }, [])
  else if action == "set" then
    match args with
    | .obj fs =>
      fallbackTitled cfg { st2 with slots := _normalize_times cfg (applySetArgs st2.slots fs) }
    | _ => .error (.attributeError "items")
  else if action == "confirm" then
    match argGet args "summary" with
    | .error e => .error e
    | .ok (some v) =>
      if jTruthy v then
        match v with
        | .str s =>
          .ok (st2, { awaiting_confirm := some true, confirm_summary := some s,
                      reply := some s }, [])
        | _ => .error (.validationError "summary must be a string")
      else confirmBuilt cfg st2
    | .ok none => confirmBuilt cfg st2
  else if action == "check_availability" then
    match tool_check_availability o st2 with
    | (upd, tr) => .ok (st2, upd, tr)
  else if action == "create_event" then
    if !st2.awaiting_confirm then confirmBuilt cfg st2
    else
      match tool_create_event cfg o st2 with
      | .error e => .error e
      | .ok (upd, s', tr) => .ok ({ st2 with slots := s' }, upd, tr)
  else if action == "send_email" then
    match argGet args "yes" with
    | .error e => .error e
    | .ok v =>
      match tool_send_email cfg o st2 (match v with | none => true | some v => jTruthy v) with
      | .error e => .error e
      | .ok (upd, tr) => .ok (st2, upd, tr)
  else if action == "finish" then
    match argStrGetDefault args "message" "All set." with
    | .error e => .error e
    | .ok msg => .ok (st2, { reply := some msg }, [])
  else .ok (st2, { reply := some "Please provide the next detail." }, [])

/-- `decide_and_act`: pre-extract, normalize, consult the completion
collaborator (its response is `o.llmRaw`), decode a strict-JSON action and
dispatch.  Returns the state (with its in-place slot mutations), the update
dict returned by the node, and the collaborator-call trace. -/
def decide_and_act (cfg : Settings) (o : Oracle) (st : AgentState) :
    Except PyErr (AgentState × Updates × List TurnEvent) :=
  match _preextract_slots st with
  | .error e => .error e
  | .ok st1 =>
    match decodedDecision (pyStrip o.llmRaw) with
    | none => fallbackStep cfg { st1 with slots := _normalize_times cfg st1.slots }
    | some dec =>
      match extractAction dec with
      | .error e => .error e
      | .ok action =>
        dispatchAction cfg o { st1 with slots := _normalize_times cfg st1.slots } action
          (extractArgs dec)

/-- Clear the confirmation state, clear the scratch message, and record the
assistant reply (end of the local confirmation branches). -/
def clearConfirm (st : AgentState) (reply : String) : AgentState :=
  { st with
    awaiting_confirm := false
    confirm_summary := ""
    new_user_message := ""
    history := st.history ++ [⟨"assistant", reply⟩] }

/-- `if reply: state["history"].append(...)`. -/
def appendReply (st : AgentState) (reply : String) : AgentState :=
  if reply != "" then { st with history := st.history ++ [⟨"assistant", reply⟩] } else st

/-- Post-create part of the local confirmation branch after the email was
attempted. -/
def confirmEmailed (st2 : AgentState) (ev : CalResult) (tr : List TurnEvent) :
    Except PyErr (ChatOut × AgentState × List TurnEvent) :=
  .ok (⟨st2.reply, st2.slots, true, some ⟨some ev, st2.email_result⟩⟩,
       clearConfirm st2 st2.reply, tr)

/-- Post-create part of the local confirmation branch (lines 444–460 /
472–487): auto-email unless the message says not to; a stale
`created_event` from an earlier turn also satisfies the `if`. -/
def confirmCreated (cfg : Settings) (o : Oracle) (st1 : AgentState) (text : String)
    (trC : List TurnEvent) : Except PyErr (ChatOut × AgentState × List TurnEvent) :=
  match st1.created_event with
  | some ev =>
    if !wants_no_email text then
      match tool_send_email cfg o st1 true with
      | .error e => .error e
      | .ok (updE, trE) => confirmEmailed (applyUpd st1 updE) ev (trC ++ trE)
    else
      .ok (⟨"Event created. (Skipped email.)", st1.slots, true, some ⟨some ev, none⟩⟩,
           clearConfirm st1 "Event created. (Skipped email.)", trC)
  | none =>
    .ok (⟨st1.reply, st1.slots, false, none⟩, clearConfirm st1 st1.reply, trC)

/-- Lines 443–460 / 471–487 of `agent_chat` (identical in the source): create,
then auto-email unless the message says not to; clear the confirmation state. -/
def confirmCreateFlow (cfg : Settings) (o : Oracle) (st : AgentState) (text : String) :
    Except PyErr (ChatOut × AgentState × List TurnEvent) :=
  match tool_create_event cfg o st with
  | .error e => .error e
  | .ok (updC, s', trC) => confirmCreated cfg o (applyUpd { st with slots := s' } updC) text trC

/-- Explicit-availability fast path, after pre-extract and normalize. -/
def availabilityChecked (cfg : Settings) (o : Oracle) (stB : AgentState) :
    Except PyErr (ChatOut × AgentState × List TurnEvent) :=
  if (_missing cfg stB.slots).isEmpty then
    match tool_check_availability o stB with
    | (upd, tr) =>
      .ok (⟨(applyUpd stB upd).reply, (applyUpd stB upd).slots, false, none⟩,
           appendReply { applyUpd stB upd with new_user_message := "" } (applyUpd stB upd).reply,
           tr)
  else
    .ok (⟨"Missing for availability check: " ++ joinComma (_missing cfg stB.slots) ++ ".",
          stB.slots, false, none⟩,
         { stB with
           new_user_message := ""
           history := stB.history ++ [⟨"assistant",
             "Missing for availability check: " ++ joinComma (_missing cfg stB.slots) ++ "."⟩] },
         [])

/-- Pending-confirmation negative branch. -/
def declineFlow (st : AgentState) : Except PyErr (ChatOut × AgentState × List TurnEvent) :=
  .ok (⟨"Okay, what would you like to change?", st.slots, false, none⟩,
       clearConfirm st "Okay, what would you like to change?", [])

/-- Policy-path tail after the email attempt (`created_now` was truthy). -/
def policyEmailed (st2 : AgentState) (ev0 : Option CalResult) (tr : List TurnEvent) :
    Except PyErr (ChatOut × AgentState × List TurnEvent) :=
  .ok (⟨st2.reply, st2.slots, st2.created_event.isSome, some ⟨ev0, st2.email_result⟩⟩,
       appendReply { st2 with awaiting_confirm := false, confirm_summary := "" } st2.reply, tr)

/-- Policy-path tail: the graph returns the whole merged state, so any present
`created_event` (also one from an earlier turn) triggers the auto-email and
`done` is the truthiness of `created_event`. -/
def policyFinish (cfg : Settings) (o : Oracle) (st1 : AgentState) (text : String)
    (trP : List TurnEvent) : Except PyErr (ChatOut × AgentState × List TurnEvent) :=
  if st1.created_event.isSome then
    if !wants_no_email text then
      match tool_send_email cfg o st1 true with
      | .error e => .error e
      | .ok (updE, trE) => policyEmailed (applyUpd st1 updE) st1.created_event (trP ++ trE)
    else
      .ok (⟨"Event created. (Skipped email.)", st1.slots, st1.created_event.isSome,
            some ⟨st1.created_event, none⟩⟩,
           appendReply { st1 with awaiting_confirm := false, confirm_summary := "" }
             "Event created. (Skipped email.)",
           trP)
  else
    .ok (⟨st1.reply, st1.slots, st1.created_event.isSome, some ⟨none, none⟩⟩,
         appendReply st1 st1.reply, trP)

/-- Treat-continue-as-confirm shortcut, else one policy step. -/
def mainFlow (cfg : Settings) (o : Oracle) (stB : AgentState) (text : String) :
    Except PyErr (ChatOut × AgentState × List TurnEvent) :=
  if !stB.awaiting_confirm && (_missing cfg stB.slots).isEmpty && is_affirmative text then
    match _build_confirm_summary cfg stB.slots with
    | .error e => .error e
    | .ok summary =>
      confirmCreateFlow cfg o { stB with awaiting_confirm := true, confirm_summary := summary }
        text
  else
    match decide_and_act cfg o stB with
    | .error e => .error e
    | .ok (stP, upd, trP) =>
      policyFinish cfg o { applyUpd stP upd with new_user_message := "" } text trP

/-- One `/agent/chat` turn on the stored session state (message already
stripped and recorded). -/
def agentTurn (cfg : Settings) (o : Oracle) (st : AgentState) (text : String) :
    Except PyErr (ChatOut × AgentState × List TurnEvent) :=
  if wants_check_availability text then
    match _preextract_slots st with
    | .error e => .error e
    | .ok stA => availabilityChecked cfg o { stA with slots := _normalize_times cfg stA.slots }
  else if st.awaiting_confirm && is_affirmative text then confirmCreateFlow cfg o st text
  else if st.awaiting_confirm && is_negative text then declineFlow st
  else
    match _preextract_slots st with
    | .error e => .error e
    | .ok stA => mainFlow cfg o { stA with slots := _normalize_times cfg stA.slots } text

/-- `/agent/chat`: explicit-availability fast path, local yes/no confirmation
handling, treat-continue-as-confirm shortcut, else one policy step with
auto-email on a present create. -/
def agent_chat (cfg : Settings) (o : Oracle) (st0 : AgentState) (message : String) :
    Except PyErr (ChatOut × AgentState × List TurnEvent) :=
  agentTurn cfg o
    { st0 with
      history := st0.history ++ [⟨"user", pyStrip message⟩]
      new_user_message := pyStrip message }
    (pyStrip message)

/-- `_new_session`: fresh slots (timezone prefilled with the default), greeting
reply, not awaiting confirmation. -/
def _new_session (cfg : Settings) : AgentState :=
  { slots := {
      title := .null
      start_iso := .null
      end_iso := .null
      timezone := .str cfg.default_timezone
      attendees := .arr []
      location := .null
      description := .null
      recurrence := .null
      link := .null }
    history := []
    busy := none
    created_event := none
    email_result := none
    reply := "Hi! What should I schedule?"
    new_user_message := ""
    awaiting_confirm := false
    confirm_summary := "" }

/-! ### Auxiliary definitions used by the theorems -/

/-- Projections of a turn result (reply / done / trace / response data /
session `created_event`). -/
def chatReply (r : Except PyErr (ChatOut × AgentState × List TurnEvent)) : Option String :=
  r.toOption.map (fun x => x.1.reply)

def chatDone (r : Except PyErr (ChatOut × AgentState × List TurnEvent)) : Option Bool :=
  r.toOption.map (fun x => x.1.done)

def chatTrace (r : Except PyErr (ChatOut × AgentState × List TurnEvent)) :
    Option (List TurnEvent) :=
  r.toOption.map (fun x => x.2.2)

def chatData (r : Except PyErr (ChatOut × AgentState × List TurnEvent)) :
    Option (Option ChatData) :=
  r.toOption.map (fun x => x.1.data)

def chatCreated (r : Except PyErr (ChatOut × AgentState × List TurnEvent)) :
    Option (Option CalResult) :=
  r.toOption.map (fun x => x.2.1.created_event)

/-- Attendees slot holding a list of strings (the shape `_new_session` creates
and `_preextract_slots` maintains). -/
def attendeesWF : JVal → Bool
  | .arr xs => xs.all (fun v => match v with | .str _ => true | _ => false)
  | _ => false

/-- Slot shapes under which `tool_create_event`'s pydantic validation cannot
raise: string title/times/timezone, email-shaped string attendees, optional
string location/description/recurrence. -/
def slotsWF (s : Slots) : Bool :=
  (match s.title with | .str t => decide (1 ≤ t.length) | _ => false) &&
  (match s.start_iso with | .str _ => true | _ => false) &&
  (match s.end_iso with | .str _ => true | _ => false) &&
  (match s.timezone with | .str _ => true | _ => false) &&
  (match s.attendees with
   | .arr xs => xs.all (fun v => match v with | .str e => validEmailStr e | _ => false)
   | _ => false) &&
  (match s.location with | .null => true | .str _ => true | _ => false) &&
  (match s.description with | .null => true | .str _ => true | _ => false) &&
  (match s.recurrence with | .null => true | .str _ => true | _ => false)

/-! ### Concrete scenario values for counterexamples and witnesses -/

def cexCfg : Settings := { default_timezone := "America/Chicago", defaultOffsetMin := -300, gmail_from := "me@example.com" }

def cexCfgNoTz : Settings := { default_timezone := "", defaultOffsetMin := -300, gmail_from := "me@example.com" }

def calOkRes : CalResult := { ok := true, data := some { id := some "e1", link := some "http://cal/ev1" }, error := none }

def calFailRes : CalResult := { ok := false, data := none, error := some "boom" }

def mailOkRes : EmailResult := { ok := true, dataId := some "m1", error := none }

/-- Completion collaborator answering with an `ask` action. -/
def oracleAsk : Oracle :=
  { llmRaw := "\x7b\"action\": \"ask\"\x7d", calCreate := calOkRes, calBusy := [],
    gmailSend := mailOkRes }

/-- Completion collaborator answering with a `set` action that completes the
required slots. -/
def oracleSet : Oracle :=
  { llmRaw := "\x7b\"action\": \"set\", \"args\": \x7b\"title\": \"Sync\", \"start_iso\": \"2025-08-18T10:00:00\", \"end_iso\": \"2025-08-18T10:30:00\"\x7d\x7d",
    calCreate := calOkRes, calBusy := [], gmailSend := mailOkRes }

/-- Completion collaborator answering with a bare `create_event` action. -/
def oracleCreate : Oracle :=
  { llmRaw := "\x7b\"action\": \"create_event\"\x7d", calCreate := calOkRes, calBusy := [],
    gmailSend := mailOkRes }

/-- Completion collaborator returning unparsable text. -/
def oracleBad : Oracle :=
  { llmRaw := "not json", calCreate := calOkRes, calBusy := [], gmailSend := mailOkRes }

/-- Completion collaborator returning unparsable text while the Calendar
collaborator reports a failed insert. -/
def oracleBadCal : Oracle :=
  { llmRaw := "not json", calCreate := calFailRes, calBusy := [], gmailSend := mailOkRes }

/-- Turn 1 of the counterexample run: a `set` action completes the slots and
the session transitions to `awaiting_confirm`. -/
def cexTurn1 : Except PyErr (ChatOut × AgentState × List TurnEvent) :=
  agent_chat cexCfg oracleSet (_new_session cexCfg) "set it up"

def cexS1 : AgentState :=
  match cexTurn1 with
  | .ok (_, s, _) => s
  | .error _ => _new_session cexCfg

/-- Turn 2: local "yes" confirmation creates the event. -/
def cexTurn2 : Except PyErr (ChatOut × AgentState × List TurnEvent) :=
  agent_chat cexCfg oracleAsk cexS1 "yes"

def cexS2 : AgentState :=
  match cexTurn2 with
  | .ok (_, s, _) => s
  | .error _ => cexS1

/-- Turn 3: an unrelated message; the policy step runs, no create occurs. -/
def cexTurn3 : Except PyErr (ChatOut × AgentState × List TurnEvent) :=
  agent_chat cexCfg oracleAsk cexS2 "hello"

/-- The confirmation-turn message "no email please" while awaiting. -/
def cexTurnNoEmail : Except PyErr (ChatOut × AgentState × List TurnEvent) :=
  agent_chat cexCfg oracleAsk cexS1 "no email please"

/-- A session with complete, well-formed slots (used for witnesses). -/
def fullState : AgentState :=
  { _new_session cexCfg with slots := { (_new_session cexCfg).slots with
      title := .str "Sync"
      start_iso := .str "2025-08-18T10:00:00"
      end_iso := .str "2025-08-18T10:30:00"
      attendees := .arr [.str "bob@example.com"] } }

/-- `fullState` while awaiting confirmation. -/
def fullAwait : AgentState :=
  { fullState with awaiting_confirm := true, confirm_summary := "pending" }

/-- Input state of the idempotence witness. -/
def preWitSt : AgentState :=
  { _new_session cexCfg with
      new_user_message := "add a@x.co and A@x.co plus https://ex.org in Pacific time" }

def preWitStOut : AgentState :=
  match _preextract_slots preWitSt with
  | .ok s => s
  | .error _ => preWitSt

/-- The availability-scenario turn on a fresh session. -/
def cexAvail : Except PyErr (ChatOut × AgentState × List TurnEvent) :=
  agent_chat cexCfg oracleAsk (_new_session cexCfg) "am I free tomorrow 2-3pm?"

def cexAvailReply : String := (chatReply cexAvail).getD ""

/-- The session state reached by the availability fast path on a fresh session
(message recorded, slots normalized), for any configuration. -/
def freshAvailState (cfg : Settings) : AgentState :=
  { _new_session cfg with
      history := (_new_session cfg).history ++ [⟨"user", "am I free tomorrow 2-3pm?"⟩]
      new_user_message := "am I free tomorrow 2-3pm?"
      slots := _normalize_times cfg (_new_session cfg).slots }

def cexOut1 : ChatOut :=
  match cexTurn1 with
  | .ok (o, _, _) => o
  | .error _ => default

def cexTr1 : List TurnEvent :=
  match cexTurn1 with
  | .ok (_, _, t) => t
  | .error _ => []

/-- The policy step run on complete slots with a decoded `create_event` action
while not awaiting confirmation (confirm-gate scenario). -/
def gateDecide : Except PyErr (AgentState × Updates × List TurnEvent) :=
  decide_and_act cexCfg oracleCreate fullState

def gateSt2 : AgentState :=
  match gateDecide with
  | .ok (s, _, _) => s
  | .error _ => fullState

def gateUpd : Updates :=
  match gateDecide with
  | .ok (_, u, _) => u
  | .error _ => {}

def gateTr : List TurnEvent :=
  match gateDecide with
  | .ok (_, _, t) => t
  | .error _ => []

/-- Completion collaborator with unparsable output while the Calendar
collaborator reports a failed insert (`ok = false`). -/
def oracleFailCal : Oracle :=
  { llmRaw := "x", calCreate := calFailRes, calBusy := [], gmailSend := mailOkRes }

/-- Confirmation-yes turn whose Calendar collaborator result has `ok = false`. -/
def c10Run : Except PyErr (ChatOut × AgentState × List TurnEvent) :=
  agent_chat cexCfg oracleFailCal fullAwait "yes"

def c10Out : ChatOut :=
  match c10Run with
  | .ok (o, _, _) => o
  | .error _ => default

def c10St : AgentState :=
  match c10Run with
  | .ok (_, s, _) => s
  | .error _ => fullAwait

def c10Tr : List TurnEvent :=
  match c10Run with
  | .ok (_, _, t) => t
  | .error _ => []

/-- Confirmation-yes turn whose message also asks to skip the email. -/
def c4Run : Except PyErr (ChatOut × AgentState × List TurnEvent) :=
  agent_chat cexCfg oracleAsk fullAwait "yes, and no email please"

def c4Out : ChatOut :=
  match c4Run with
  | .ok (o, _, _) => o
  | .error _ => default

def c4St : AgentState :=
  match c4Run with
  | .ok (_, s, _) => s
  | .error _ => fullAwait

def c4Tr : List TurnEvent :=
  match c4Run with
  | .ok (_, _, t) => t
  | .error _ => []

def cexAvailOut : ChatOut :=
  match cexAvail with
  | .ok (o, _, _) => o
  | .error _ => default

def cexAvailSt : AgentState :=
  match cexAvail with
  | .ok (_, s, _) => s
  | .error _ => _new_session cexCfg

def cexAvailTr : List TurnEvent :=
  match cexAvail with
  | .ok (_, _, t) => t
  | .error _ => []

/-! ### Shared helper lemmas -/

theorem missingBaseLen (s : Slots) :
    (REQUIRED.filter (fun k => !jTruthy (sget s k))).length =
      ((if jTruthy s.title then 0 else 1) + (if jTruthy s.start_iso then 0 else 1) +
       (if jTruthy s.end_iso then 0 else 1) + (if jTruthy s.timezone then 0 else 1)) := by
  simp only [REQUIRED, sget, Slots.get, Option.getD, List.filter]
  cases h1 : jTruthy s.title <;> cases h2 : jTruthy s.start_iso <;>
    cases h3 : jTruthy s.end_iso <;> cases h4 : jTruthy s.timezone <;> simp [h1, h2, h3, h4]

theorem ordViolation_start_false (cfg : Settings) (s : Slots)
    (h : jTruthy s.start_iso = false) : ordViolation cfg s = false := by
  unfold ordViolation
  cases hs : s.start_iso <;> cases he : s.end_iso <;> simp_all [jTruthy]

theorem ordViolation_end_false (cfg : Settings) (s : Slots)
    (h : jTruthy s.end_iso = false) : ordViolation cfg s = false := by
  unfold ordViolation
  cases hs : s.start_iso <;> cases he : s.end_iso <;> simp_all [jTruthy]

/-- Claim C5: filling one previously-missing required field never lengthens the
validator's list; when both times are set, parseable, and start >= end, the
ordering-violation label is reported and is distinct from the absence labels. -/
theorem validator_monotonicity :
    (∀ cfg s k v, k ∈ REQUIRED → jTruthy (sget s k) = false → jTruthy v = true →
        (_missing cfg (Slots.set s k v)).length ≤ (_missing cfg s).length)
  ∧ (∀ cfg s si ei sdt edt,
        s.start_iso = .str si → s.end_iso = .str ei → si ≠ "" → ei ≠ "" →
        _parse_dt cfg si = some sdt → _parse_dt cfg ei = some edt →
        dtKey cfg.defaultOffsetMin edt ≤ dtKey cfg.defaultOffsetMin sdt →
        ordLabel ∈ _missing cfg s ∧ ordLabel ∉ REQUIRED) := by
  constructor
  · intro cfg s k v hk hf ht
    have hk' : k = "title" ∨ k = "start_iso" ∨ k = "end_iso" ∨ k = "timezone" := by
      simpa [REQUIRED] using hk
    rcases hk' with rfl | rfl | rfl | rfl
    · simp only [sget, Slots.get, Option.getD] at hf
      simp only [_missing, Slots.set, List.length_append, missingBaseLen,
        apply_ite List.length, List.length_singleton, List.length_nil]
      have hord : ordViolation cfg { s with title := v } = ordViolation cfg s := rfl
      rw [hord]
      simp only [hf, ht]
      split_ifs <;> omega
    · simp only [sget, Slots.get, Option.getD] at hf
      simp only [_missing, Slots.set, List.length_append, missingBaseLen,
        apply_ite List.length, List.length_singleton, List.length_nil]
      rw [ordViolation_start_false cfg s hf]
      simp only [hf, ht]
      split_ifs <;> omega
    · simp only [sget, Slots.get, Option.getD] at hf
      simp only [_missing, Slots.set, List.length_append, missingBaseLen,
        apply_ite List.length, List.length_singleton, List.length_nil]
      rw [ordViolation_end_false cfg s hf]
      simp only [hf, ht]
      split_ifs <;> omega
    · simp only [sget, Slots.get, Option.getD] at hf
      simp only [_missing, Slots.set, List.length_append, missingBaseLen,
        apply_ite List.length, List.length_singleton, List.length_nil]
      have hord : ordViolation cfg { s with timezone := v } = ordViolation cfg s := rfl
      rw [hord]
      simp only [hf, ht]
      split_ifs <;> omega
  · intro cfg s si ei sdt edt hsi hei hsine heine hps hpe hge
    refine ⟨?_, by decide⟩
    have hord : ordViolation cfg s = true := by
      unfold ordViolation
      rw [hsi, hei]
      simp [hps, hpe, hsine, heine, hge]
    unfold _missing
    rw [hord]
    simp

/-- Witness for C5 at concrete inputs: filling the missing title, and a slot
snapshot with start = end. -/
theorem validator_monotonicity_witness :
    ((_missing cexCfg (Slots.set (_new_session cexCfg).slots "title" (.str "Sync"))).length ≤
        (_missing cexCfg (_new_session cexCfg).slots).length)
    ∧ (ordLabel ∈ _missing cexCfg { fullState.slots with end_iso := .str "2025-08-18T10:00:00" }
        ∧ ordLabel ∉ REQUIRED) := by
  constructor
  · exact validator_monotonicity.1 cexCfg (_new_session cexCfg).slots "title" (.str "Sync")
      (by decide) rfl rfl
  · exact validator_monotonicity.2 cexCfg
      { fullState.slots with end_iso := .str "2025-08-18T10:00:00" }
      "2025-08-18T10:00:00" "2025-08-18T10:00:00"
      ⟨2025, 8, 18, 10, 0, 0, some (-300)⟩ ⟨2025, 8, 18, 10, 0, 0, some (-300)⟩
      rfl rfl (by decide) (by decide) rfl rfl (by omega)

/-- Claim C6: word-form timezone hints take precedence over abbreviations (the
first word in scanning order wins); with no word present, the last
abbreviation occurrence in the text decides; with neither, the result is null. -/
theorem tz_precedence :
    (∀ text p,
        TZ_WORDS.find? (fun q => strSub q.1 (String.mk (lowerChars text.data))) = some p →
        _detect_tz_tokens text = some p.2 ∧ p.2 ∈ TZ_WORDS.map Prod.snd)
  ∧ (∀ text (toks : List String) (tok : String),
        TZ_WORDS.find? (fun q => strSub q.1 (String.mk (lowerChars text.data))) = none →
        findTzAbbrs text = toks ++ [tok] →
        _detect_tz_tokens text = lookupAssoc TZ_ABBR (upperStr tok))
  ∧ (∀ text,
        TZ_WORDS.find? (fun q => strSub q.1 (String.mk (lowerChars text.data))) = none →
        findTzAbbrs text = [] →
        _detect_tz_tokens text = none) := by
  refine ⟨?_, ?_, ?_⟩
  · intro text p h
    unfold _detect_tz_tokens
    simp only [h]
    exact ⟨trivial, List.mem_map_of_mem Prod.snd (List.mem_of_find?_eq_some h)⟩
  · intro text toks tok h1 h2
    unfold _detect_tz_tokens
    simp only [h1, h2, List.getLast?_concat]
  · intro text h1 h2
    unfold _detect_tz_tokens
    simp only [h1, h2]
    rfl

/-- Witness for C6: a text with both forms (word wins), one with two
abbreviations (last wins), one with neither (null). -/
theorem tz_precedence_witness :
    _detect_tz_tokens "ET then pacific" = some "America/Los_Angeles"
    ∧ _detect_tz_tokens "PT and later ET" = some "America/New_York"
    ∧ _detect_tz_tokens "see you tomorrow" = none := by
  refine ⟨?_, ?_, ?_⟩
  · exact (tz_precedence.1 "ET then pacific" ("pacific", "America/Los_Angeles") rfl).1
  · exact (tz_precedence.2.1 "PT and later ET" ["pt"] "et" rfl rfl).trans
      (by decide : lookupAssoc TZ_ABBR (upperStr "et") = some "America/New_York")
  · exact tz_precedence.2.2 "see you tomorrow" rfl rfl

/-- Claim C9: `CalendarClient.get_busy` dereferences the never-assigned
attribute `self.service`, so it raises `AttributeError` for every input and
never reaches the Calendar collaborator; `tool_check_availability` with all
three times present therefore always takes its exception branch. -/
theorem get_busy_attr_error :
    (∀ o si ei tzv,
        CalendarClient.get_busy o si ei tzv = (.error (.attributeError calSvcAttrMsg), []))
  ∧ (∀ o st, jTruthy st.slots.start_iso = true → jTruthy st.slots.end_iso = true →
        jTruthy st.slots.timezone = true →
        tool_check_availability o st =
          ({ reply := some ("Availability check failed: " ++ calSvcAttrMsg) }, [])) := by
  constructor
  · intro o si ei tzv
    rfl
  · intro o st h1 h2 h3
    simp [tool_check_availability, h1, h2, h3, CalendarClient.get_busy, calendarClientMembers,
      pyErrStr]

/-- Witness for C9: a session with all three times present gets the failure
reply, and the reply begins with the failure prefix. -/
theorem get_busy_attr_error_witness :
    tool_check_availability oracleAsk fullState =
      ({ reply := some ("Availability check failed: " ++ calSvcAttrMsg) }, []) :=
  get_busy_attr_error.2 oracleAsk fullState rfl rfl rfl

theorem lowerItems_ok_of_strs (xs : List JVal)
    (h : ∀ v ∈ xs, ∃ e, v = JVal.str e) : ∃ ls, lowerItems xs = .ok ls := by
  induction xs with
  | nil => exact ⟨[], rfl⟩
  | cons v t ih =>
    obtain ⟨ls, hls⟩ := ih (fun w hw => h w (List.mem_cons_of_mem v hw))
    obtain ⟨e, rfl⟩ := h v (List.mem_cons_self v t)
    exact ⟨lowerStr e :: ls, by simp [lowerItems, hls, Except.map]⟩

theorem lowerItems_append (xs ys : List JVal) (a b : List String)
    (hx : lowerItems xs = .ok a) (hy : lowerItems ys = .ok b) :
    lowerItems (xs ++ ys) = .ok (a ++ b) := by
  induction xs generalizing a with
  | nil =>
    simp [lowerItems] at hx
    simp [hx, hy]
  | cons v t ih =>
    cases v with
    | str e =>
      simp only [lowerItems, Except.map] at hx
      cases ht : lowerItems t with
      | error er => rw [ht] at hx; simp at hx
      | ok r =>
        rw [ht] at hx
        simp at hx
        subst hx
        simp [lowerItems, ih r ht, Except.map]
    | null => simp [lowerItems] at hx
    | jbool b' => simp [lowerItems] at hx
    | num r => simp [lowerItems] at hx
    | arr l => simp [lowerItems] at hx
    | obj l => simp [lowerItems] at hx

theorem lowerItems_mem (xs : List JVal) (ls : List String) (e : String)
    (h : lowerItems xs = .ok ls) (hm : JVal.str e ∈ xs) : lowerStr e ∈ ls := by
  induction xs generalizing ls with
  | nil => simp at hm
  | cons v t ih =>
    cases v with
    | str e' =>
      simp only [lowerItems, Except.map] at h
      cases ht : lowerItems t with
      | error er => rw [ht] at h; simp at h
      | ok r =>
        rw [ht] at h
        simp at h
        subst h
        rcases List.mem_cons.mp hm with heq | hmem
        · cases heq
          exact List.mem_cons_self _ _
        · exact List.mem_cons_of_mem _ (ih r ht hmem)
    | null => simp [lowerItems] at h
    | jbool b' => simp [lowerItems] at h
    | num r => simp [lowerItems] at h
    | arr l => simp [lowerItems] at h
    | obj l => simp [lowerItems] at h

theorem appendEmails_skip (emails : List String) (seen : List String) (att : JVal)
    (h : ∀ e ∈ emails, seen.contains (lowerStr e) = true) :
    appendEmails emails seen att = .ok att := by
  induction emails with
  | nil => rfl
  | cons e rest ih =>
    simp only [appendEmails, h e (List.mem_cons_self e rest)]
    exact ih (fun e' he' => h e' (List.mem_cons_of_mem e he'))

theorem appendEmails_arr (emails : List String) (seen : List String) (xs : List JVal)
    (att' : JVal) (h : appendEmails emails seen (.arr xs) = .ok att') :
    ∃ ys, att' = .arr (xs ++ ys) ∧ (∀ v ∈ ys, ∃ e, v = JVal.str e ∧ e ∈ emails) ∧
      (∀ e ∈ emails, seen.contains (lowerStr e) = true ∨ JVal.str e ∈ ys) := by
  induction emails generalizing xs with
  | nil =>
    simp only [appendEmails] at h
    refine ⟨[], by simpa using h.symm, by simp, by simp⟩
  | cons e rest ih =>
    simp only [appendEmails] at h
    by_cases hc : seen.contains (lowerStr e) = true
    · rw [if_pos hc] at h
      obtain ⟨ys, h1, h2, h3⟩ := ih xs h
      refine ⟨ys, h1, fun v hv => ?_, fun e' he' => ?_⟩
      · obtain ⟨e2, he2, hm⟩ := h2 v hv
        exact ⟨e2, he2, List.mem_cons_of_mem e hm⟩
      · rcases List.mem_cons.mp he' with rfl | hmem
        · exact Or.inl hc
        · rcases h3 e' hmem with hl | hr
          · exact Or.inl hl
          · exact Or.inr hr
    · rw [if_neg hc] at h
      obtain ⟨ys, h1, h2, h3⟩ := ih (xs ++ [JVal.str e]) h
      refine ⟨JVal.str e :: ys, by simpa using h1, fun v hv => ?_, fun e' he' => ?_⟩
      · rcases List.mem_cons.mp hv with rfl | hmem
        · exact ⟨e, rfl, List.mem_cons_self e rest⟩
        · obtain ⟨e2, he2, hm⟩ := h2 v hmem
          exact ⟨e2, he2, List.mem_cons_of_mem e hm⟩
      · rcases List.mem_cons.mp he' with rfl | hmem
        · exact Or.inr (List.mem_cons_self _ _)
        · rcases h3 e' hmem with hl | hr
          · exact Or.inl hl
          · exact Or.inr (List.mem_cons_of_mem _ hr)

theorem appendEmails_arr_total (emails : List String) (seen : List String) (xs : List JVal) :
    ∃ att', appendEmails emails seen (.arr xs) = .ok att' := by
  induction emails generalizing xs with
  | nil => exact ⟨.arr xs, rfl⟩
  | cons e rest ih =>
    simp only [appendEmails]
    by_cases hc : seen.contains (lowerStr e) = true
    · rw [if_pos hc]; exact ih xs
    · rw [if_neg hc]; exact ih (xs ++ [JVal.str e])

theorem appendEmails_nonarr (emails : List String) (seen : List String) (att att' : JVal)
    (hna : ∀ xs, att ≠ .arr xs) (h : appendEmails emails seen att = .ok att') :
    att' = att ∧ ∀ e ∈ emails, seen.contains (lowerStr e) = true := by
  induction emails with
  | nil =>
    simp only [appendEmails] at h
    exact ⟨by simpa using h.symm, by simp⟩
  | cons e rest ih =>
    simp only [appendEmails] at h
    by_cases hc : seen.contains (lowerStr e) = true
    · rw [if_pos hc] at h
      obtain ⟨h1, h2⟩ := ih h
      refine ⟨h1, fun e' he' => ?_⟩
      rcases List.mem_cons.mp he' with rfl | hmem
      · exact hc
      · exact h2 e' hmem
    · rw [if_neg hc] at h
      cases att with
      | arr xs => exact absurd rfl (hna xs)
      | null => simp at h
      | jbool b => simp at h
      | num r => simp at h
      | str s => simp at h
      | obj fs => simp at h

theorem contains_append_left (l₁ l₂ : List String) (a : String)
    (h : l₁.contains a = true) : (l₁ ++ l₂).contains a = true := by
  have := List.elem_iff.mp h
  exact List.elem_iff.mpr (List.mem_append_left _ this)

theorem contains_append_right (l₁ l₂ : List String) (a : String)
    (h : l₂.contains a = true) : (l₁ ++ l₂).contains a = true := by
  have := List.elem_iff.mp h
  exact List.elem_iff.mpr (List.mem_append_right _ this)

theorem contains_of_mem_str (l : List String) (a : String) (h : a ∈ l) :
    l.contains a = true := List.elem_iff.mpr h

theorem jTruthy_arr_false (xs : List JVal) (h : jTruthy (JVal.arr xs) = false) : xs = [] := by
  simpa [jTruthy, List.isEmpty_iff] using h

theorem attStep_idem (emails : List String) (att att' : JVal)
    (h : attStep emails att = .ok att') : attStep emails att' = .ok att' := by
  by_cases he : emails.isEmpty
  · simp_all [attStep]
  · simp only [attStep, if_neg he] at h ⊢
    cases hg : iterLower (if jTruthy att then att else .arr []) with
    | error er => rw [hg] at h; simp at h
    | ok seen =>
      rw [hg] at h
      simp only [] at h
      by_cases harr : ∃ xs, att = JVal.arr xs
      · obtain ⟨xs, rfl⟩ := harr
        obtain ⟨ys, rfl, hstr, hmem⟩ := appendEmails_arr _ _ _ _ h
        have hseen : lowerItems xs = .ok seen := by
          by_cases hxs : jTruthy (JVal.arr xs) = true
          · rw [if_pos hxs] at hg; exact hg
          · have hx : xs = [] := jTruthy_arr_false xs (by simpa using hxs)
            subst hx
            rw [if_neg hxs] at hg
            simpa [iterLower, lowerItems] using hg
        obtain ⟨ls, hls⟩ := lowerItems_ok_of_strs ys (fun v hv => (hstr v hv).imp (fun e p => p.1))
        have happ : lowerItems (xs ++ ys) = .ok (seen ++ ls) :=
          lowerItems_append _ _ _ _ hseen hls
        have hg2 : iterLower
            (if jTruthy (JVal.arr (xs ++ ys)) then JVal.arr (xs ++ ys) else .arr []) =
            .ok (seen ++ ls) := by
          by_cases h2 : jTruthy (JVal.arr (xs ++ ys)) = true
          · rw [if_pos h2]; exact happ
          · have hx : xs ++ ys = [] := jTruthy_arr_false _ (by simpa using h2)
            rw [if_neg h2]
            rw [hx] at happ
            simpa [iterLower, lowerItems] using happ
        rw [hg2]
        simp only []
        refine appendEmails_skip emails (seen ++ ls) _ (fun e hee => ?_)
        rcases hmem e hee with hl | hr
        · exact contains_append_left _ _ _ hl
        · exact contains_append_right _ _ _
            (contains_of_mem_str _ _ (lowerItems_mem ys ls e hls hr))
      · push_neg at harr
        obtain ⟨rfl, hall⟩ := appendEmails_nonarr _ _ _ _ harr h
        rw [hg]
        simp only []
        exact appendEmails_skip emails seen att' hall

theorem slotsExt (a b : Slots) (h1 : a.title = b.title) (h2 : a.start_iso = b.start_iso)
    (h3 : a.end_iso = b.end_iso) (h4 : a.timezone = b.timezone)
    (h5 : a.attendees = b.attendees) (h6 : a.location = b.location)
    (h7 : a.description = b.description) (h8 : a.recurrence = b.recurrence)
    (h9 : a.link = b.link) : a = b := by
  cases a; cases b; simp_all

theorem linkStep_proj (text : String) (s : Slots) :
    (linkStep text s).title = s.title ∧ (linkStep text s).start_iso = s.start_iso ∧
    (linkStep text s).end_iso = s.end_iso ∧ (linkStep text s).timezone = s.timezone ∧
    (linkStep text s).attendees = s.attendees ∧ (linkStep text s).location = s.location ∧
    (linkStep text s).description = s.description ∧ (linkStep text s).recurrence = s.recurrence := by
  unfold linkStep
  split <;> [skip; exact ⟨rfl, rfl, rfl, rfl, rfl, rfl, rfl, rfl⟩]
  split <;> exact ⟨rfl, rfl, rfl, rfl, rfl, rfl, rfl, rfl⟩

theorem tzStep_proj (text : String) (s : Slots) :
    (tzStep text s).title = s.title ∧ (tzStep text s).start_iso = s.start_iso ∧
    (tzStep text s).end_iso = s.end_iso ∧ (tzStep text s).attendees = s.attendees ∧
    (tzStep text s).location = s.location ∧ (tzStep text s).description = s.description ∧
    (tzStep text s).recurrence = s.recurrence ∧ (tzStep text s).link = s.link := by
  unfold tzStep
  split <;> exact ⟨rfl, rfl, rfl, rfl, rfl, rfl, rfl, rfl⟩

theorem linkStep_link_pres (text : String) (s : Slots) (h : jTruthy s.link = true) :
    (linkStep text s).link = s.link := by
  unfold linkStep
  rw [h]
  simp

theorem matchUrlAt_ne_nil (cs m : List Char) (h : matchUrlAt cs = some m) : m ≠ [] := by
  unfold matchUrlAt at h
  split_ifs at h <;> (try simp at h) <;> (intro hc; rw [hc] at h; simp at h)

theorem findFirstUrlAux_ne_empty (cs : List Char) (u : String)
    (h : findFirstUrlAux cs = some u) : jTruthy (.str u) = true := by
  induction cs with
  | nil => simp [findFirstUrlAux] at h
  | cons c t ih =>
    unfold findFirstUrlAux at h
    cases hm : matchUrlAt (c :: t) with
    | some m =>
      rw [hm] at h
      simp only [Option.some.injEq] at h
      subst h
      have := matchUrlAt_ne_nil _ _ hm
      simp [jTruthy]
      intro hc
      exact this (by simpa using congrArg String.data hc)
    | none =>
      rw [hm] at h
      exact ih h

theorem linkStep_again (text : String) (s0 s2 : Slots)
    (h : s2.link = (linkStep text s0).link) : linkStep text s2 = s2 := by
  have hl : jTruthy s2.link = true ∨
      (jTruthy s2.link = false ∧ findFirstUrl text = none) := by
    unfold linkStep at h
    by_cases h0 : jTruthy s0.link = true
    · rw [if_neg (by simp [h0])] at h
      left
      rw [h]
      exact h0
    · rw [Bool.not_eq_true] at h0
      rw [if_pos (by simp [h0])] at h
      cases hu : findFirstUrl text with
      | some u =>
        rw [hu] at h
        simp only [] at h
        left
        rw [h]
        exact findFirstUrlAux_ne_empty _ _ hu
      | none =>
        rw [hu] at h
        right
        exact ⟨by rw [h]; exact h0, rfl⟩
  unfold linkStep
  rcases hl with h1 | ⟨h1, h2⟩
  · rw [if_neg (by simp [h1])]
  · rw [if_pos (by simp [h1]), h2]

theorem tzStep_again (text : String) (s0 s2 : Slots)
    (h : s2.timezone = (tzStep text s0).timezone) : tzStep text s2 = s2 := by
  unfold tzStep at h ⊢
  cases hd : _detect_tz_tokens text with
  | none => rfl
  | some z =>
    rw [hd] at h
    simp only [] at h
    exact slotsExt _ _ rfl rfl rfl h.symm rfl rfl rfl rfl rfl

theorem preextractSlots_idem (text : String) (s s' : Slots)
    (h : preextractSlots text s = .ok s') : preextractSlots text s' = .ok s' := by
  unfold preextractSlots at h ⊢
  cases ha : attStep (findEmails text) s.attendees with
  | error e => rw [ha] at h; simp at h
  | ok att' =>
    rw [ha] at h
    simp only [Except.ok.injEq] at h
    subst h
    have hatt : (tzStep text (linkStep text { s with attendees := att' })).attendees = att' := by
      rw [(tzStep_proj _ _).2.2.2.1, (linkStep_proj _ _).2.2.2.2.1]
    rw [hatt, attStep_idem _ _ _ ha]
    show Except.ok (tzStep text (linkStep text
      { tzStep text (linkStep text { s with attendees := att' }) with attendees := att' })) =
      Except.ok (tzStep text (linkStep text { s with attendees := att' }))
    have hstep : { tzStep text (linkStep text { s with attendees := att' }) with
        attendees := att' } = tzStep text (linkStep text { s with attendees := att' }) :=
      slotsExt _ _ rfl rfl rfl rfl hatt.symm rfl rfl rfl rfl
    rw [hstep]
    have hlink : linkStep text (tzStep text (linkStep text { s with attendees := att' })) =
        tzStep text (linkStep text { s with attendees := att' }) :=
      linkStep_again text { s with attendees := att' } _ (tzStep_proj _ _).2.2.2.2.2.2.2
    rw [hlink]
    rw [tzStep_again text (linkStep text { s with attendees := att' }) _ rfl]

theorem attStep_arr (emails : List String) (xs : List JVal) (att' : JVal)
    (h : attStep emails (.arr xs) = .ok att') :
    ∃ ys, att' = .arr (xs ++ ys) ∧ (∀ v ∈ ys, ∃ e, v = JVal.str e) := by
  by_cases he : emails.isEmpty
  · simp only [attStep, if_pos he, Except.ok.injEq] at h
    exact ⟨[], by simp [← h], by simp⟩
  · simp only [attStep, if_neg he] at h
    cases hg : iterLower (if jTruthy (JVal.arr xs) then JVal.arr xs else .arr []) with
    | error er => rw [hg] at h; simp at h
    | ok seen =>
      rw [hg] at h
      simp only [] at h
      obtain ⟨ys, rfl, hstr, _⟩ := appendEmails_arr _ _ _ _ h
      exact ⟨ys, rfl, fun v hv => (hstr v hv).imp (fun e p => p.1)⟩

theorem preextractSlots_link_pres (text : String) (s s' : Slots)
    (h : preextractSlots text s = .ok s') (hl : jTruthy s.link = true) :
    s'.link = s.link := by
  unfold preextractSlots at h
  cases ha : attStep (findEmails text) s.attendees with
  | error e => rw [ha] at h; simp at h
  | ok att' =>
    rw [ha] at h
    simp only [Except.ok.injEq] at h
    subst h
    rw [(tzStep_proj _ _).2.2.2.2.2.2.2]
    exact linkStep_link_pres text _ hl

theorem preextractSlots_att_prefix (text : String) (s s' : Slots)
    (h : preextractSlots text s = .ok s') (xs : List JVal)
    (hx : s.attendees = .arr xs) : ∃ ys, s'.attendees = .arr (xs ++ ys) := by
  unfold preextractSlots at h
  cases ha : attStep (findEmails text) s.attendees with
  | error e => rw [ha] at h; simp at h
  | ok att' =>
    rw [ha] at h
    simp only [Except.ok.injEq] at h
    subst h
    rw [hx] at ha
    obtain ⟨ys, rfl, _⟩ := attStep_arr _ _ _ ha
    refine ⟨ys, ?_⟩
    rw [(tzStep_proj _ _).2.2.2.1, (linkStep_proj _ _).2.2.2.2.1]

/-- Claim C7: running the heuristic pre-extraction a second time on the same
message and the resulting state changes nothing; an already-set `link` is never
overwritten; attendees are only ever appended (first-seen order preserved). -/
theorem preextract_idempotent :
    ∀ st st', _preextract_slots st = .ok st' →
      _preextract_slots st' = .ok st'
      ∧ (jTruthy st.slots.link = true → st'.slots.link = st.slots.link)
      ∧ (∀ xs, st.slots.attendees = .arr xs → ∃ ys, st'.slots.attendees = .arr (xs ++ ys)) := by
  intro st st' h
  unfold _preextract_slots at h
  by_cases he : st.new_user_message == ""
  · rw [if_pos he] at h
    simp only [Except.ok.injEq] at h
    subst h
    refine ⟨by unfold _preextract_slots; rw [if_pos he], fun _ => rfl, fun xs hx => ⟨[], by simp [hx]⟩⟩
  · rw [if_neg he] at h
    cases hp : preextractSlots st.new_user_message st.slots with
    | error e => rw [hp] at h; simp at h
    | ok s' =>
      rw [hp] at h
      simp only [Except.ok.injEq] at h
      subst h
      refine ⟨?_, fun hl => preextractSlots_link_pres _ _ _ hp hl,
        fun xs hx => preextractSlots_att_prefix _ _ _ hp xs hx⟩
      unfold _preextract_slots
      rw [if_neg he]
      rw [preextractSlots_idem _ _ _ hp]

/-- Witness for C7: the state produced by one pre-extraction run over a message
carrying emails, a URL and a timezone word is a fixed point of a second run. -/
theorem preextract_idempotent_witness :
    _preextract_slots preWitStOut = .ok preWitStOut :=
  (preextract_idempotent preWitSt preWitStOut rfl).1

theorem strItems_ok_of_strs (xs : List JVal)
    (h : ∀ v ∈ xs, ∃ e, v = JVal.str e) : ∃ ls, strItems xs = .ok ls := by
  induction xs with
  | nil => exact ⟨[], rfl⟩
  | cons v t ih =>
    obtain ⟨ls, hls⟩ := ih (fun w hw => h w (List.mem_cons_of_mem v hw))
    obtain ⟨e, rfl⟩ := h v (List.mem_cons_self v t)
    exact ⟨e :: ls, by simp [strItems, hls, Except.map]⟩

theorem attendeesWF_strs (xs : List JVal) (h : attendeesWF (.arr xs) = true) :
    ∀ v ∈ xs, ∃ e, v = JVal.str e := by
  intro v hv
  have hx := (List.all_eq_true.mp (by simpa [attendeesWF] using h)) v hv
  cases v <;> simp_all

theorem pyJoin_ok_of_wf (a : JVal) (h : attendeesWF a = true) :
    ∃ j, pyJoinComma a = .ok j := by
  cases a <;> simp [attendeesWF] at h
  case arr xs =>
    obtain ⟨ls, hls⟩ := strItems_ok_of_strs xs (attendeesWF_strs xs (by simpa [attendeesWF]))
    exact ⟨joinComma ls, by simp [pyJoinComma, hls, Except.map]⟩

theorem summary_ok_of_wf (cfg : Settings) (s : Slots)
    (h : attendeesWF s.attendees = true) :
    ∃ sum, _build_confirm_summary cfg s = .ok sum := by
  unfold _build_confirm_summary
  by_cases hj : jTruthy s.attendees = true
  · rw [if_pos hj]
    obtain ⟨j, hjj⟩ := pyJoin_ok_of_wf s.attendees h
    rw [hjj]
    exact ⟨_, rfl⟩
  · rw [if_neg hj]
    exact ⟨_, rfl⟩

theorem attStep_wf_total (emails : List String) (att : JVal)
    (hwf : attendeesWF att = true) :
    ∃ att', attStep emails att = .ok att' ∧ attendeesWF att' = true := by
  cases att <;> simp [attendeesWF] at hwf
  case arr xs =>
    have hstrs := attendeesWF_strs xs (by simpa [attendeesWF])
    by_cases he : emails.isEmpty
    · exact ⟨.arr xs, by simp [attStep, he], by simpa [attendeesWF]⟩
    · obtain ⟨seen, hseen⟩ := lowerItems_ok_of_strs xs hstrs
      have hg : iterLower (if jTruthy (JVal.arr xs) then JVal.arr xs else .arr []) = .ok seen := by
        by_cases hxs : jTruthy (JVal.arr xs) = true
        · rw [if_pos hxs]; exact hseen
        · have hx : xs = [] := jTruthy_arr_false xs (by simpa using hxs)
          subst hx
          simp only [lowerItems] at hseen
          injection hseen with h2
          subst h2
          rw [if_neg hxs]
          rfl
      obtain ⟨att', happ⟩ := appendEmails_arr_total emails seen xs
      obtain ⟨ys, rfl, hstr, _⟩ := appendEmails_arr _ _ _ _ happ
      refine ⟨.arr (xs ++ ys), ?_, ?_⟩
      · simp only [attStep, if_neg he]
        rw [hg]
        simpa using happ
      · simp only [attendeesWF, List.all_append, Bool.and_eq_true]
        exact ⟨List.all_eq_true.mpr (fun v hv => by
            obtain ⟨e, rfl⟩ := hstrs v hv
            simp),
          List.all_eq_true.mpr (fun v hv => by
            obtain ⟨e, rfl, _⟩ := hstr v hv
            simp)⟩

theorem preextractSlots_title (text : String) (s s' : Slots)
    (h : preextractSlots text s = .ok s') :
    s'.title = s.title ∧ s'.start_iso = s.start_iso ∧ s'.end_iso = s.end_iso ∧
    s'.location = s.location ∧ s'.description = s.description ∧
    s'.recurrence = s.recurrence := by
  unfold preextractSlots at h
  cases ha : attStep (findEmails text) s.attendees with
  | error e => rw [ha] at h; simp at h
  | ok att' =>
    rw [ha] at h
    simp only [Except.ok.injEq] at h
    subst h
    have t := tzStep_proj text (linkStep text { s with attendees := att' })
    have l := linkStep_proj text { s with attendees := att' }
    exact ⟨t.1.trans l.1, t.2.1.trans l.2.1, t.2.2.1.trans l.2.2.1,
      (t.2.2.2.2.1).trans l.2.2.2.2.2.1, (t.2.2.2.2.2.1).trans l.2.2.2.2.2.2.1,
      (t.2.2.2.2.2.2.1).trans l.2.2.2.2.2.2.2⟩

theorem preextractSlots_wf_total (text : String) (s : Slots)
    (hwf : attendeesWF s.attendees = true) :
    ∃ s', preextractSlots text s = .ok s' ∧ attendeesWF s'.attendees = true := by
  obtain ⟨att', ha, hwf'⟩ := attStep_wf_total (findEmails text) s.attendees hwf
  refine ⟨tzStep text (linkStep text { s with attendees := att' }), ?_, ?_⟩
  · unfold preextractSlots
    rw [ha]
  · rw [(tzStep_proj _ _).2.2.2.1, (linkStep_proj _ _).2.2.2.2.1]
    exact hwf'

theorem preextract_frame (st st' : AgentState) (h : _preextract_slots st = .ok st') :
    st'.history = st.history ∧ st'.new_user_message = st.new_user_message ∧
    st'.awaiting_confirm = st.awaiting_confirm ∧ st'.created_event = st.created_event ∧
    st'.email_result = st.email_result ∧ st'.reply = st.reply ∧ st'.busy = st.busy := by
  unfold _preextract_slots at h
  split at h
  · simp only [Except.ok.injEq] at h
    subst h
    exact ⟨rfl, rfl, rfl, rfl, rfl, rfl, rfl⟩
  · split at h
    · simp at h
    · simp only [Except.ok.injEq] at h
      subst h
      exact ⟨rfl, rfl, rfl, rfl, rfl, rfl, rfl⟩

theorem preextract_slots_eq (st st' : AgentState) (h : _preextract_slots st = .ok st') :
    st'.slots = st.slots ∨ preextractSlots st.new_user_message st.slots = .ok st'.slots := by
  unfold _preextract_slots at h
  split at h
  · simp only [Except.ok.injEq] at h
    subst h
    exact Or.inl rfl
  · split at h
    · simp at h
    · simp only [Except.ok.injEq] at h
      subst h
      exact Or.inr (by assumption)

theorem preextract_wf_total (st : AgentState)
    (hwf : attendeesWF st.slots.attendees = true) :
    ∃ st', _preextract_slots st = .ok st' ∧ attendeesWF st'.slots.attendees = true := by
  unfold _preextract_slots
  split
  · exact ⟨st, rfl, hwf⟩
  · obtain ⟨s', hs', hwf'⟩ := preextractSlots_wf_total st.new_user_message st.slots hwf
    rw [hs']
    exact ⟨{ st with slots := s' }, rfl, hwf'⟩

theorem normalize_proj (cfg : Settings) (s : Slots) :
    (_normalize_times cfg s).title = s.title ∧
    (_normalize_times cfg s).attendees = s.attendees ∧
    (_normalize_times cfg s).location = s.location ∧
    (_normalize_times cfg s).description = s.description ∧
    (_normalize_times cfg s).recurrence = s.recurrence ∧
    (_normalize_times cfg s).link = s.link := by
  unfold _normalize_times
  split <;> exact ⟨rfl, rfl, rfl, rfl, rfl, rfl⟩

theorem cheap_title_truthy (text : String) : jTruthy (.str (_cheap_title text)) = true := by
  unfold _cheap_title
  cases h : cheapTitleFind none text.data with
  | none => rfl
  | some n =>
    simp only [jTruthy, Bool.not_eq_true', beq_eq_false_iff_ne, ne_eq]
    intro hc
    apply_fun String.data at hc
    simp [String.data_append] at hc

theorem cheap_title_shape (text : String) :
    (∃ n, _cheap_title text = "Meeting with " ++ n) ∨ _cheap_title text = "Meeting" := by
  unfold _cheap_title
  cases h : cheapTitleFind none text.data with
  | none => exact Or.inr rfl
  | some n => exact Or.inl ⟨n, rfl⟩

theorem fallbackTitled_total (cfg : Settings) (st3 : AgentState)
    (hwf : attendeesWF st3.slots.attendees = true) :
    ∃ r, fallbackTitled cfg st3 = .ok r := by
  unfold fallbackTitled
  split
  · obtain ⟨sum, hsum⟩ := summary_ok_of_wf cfg st3.slots hwf
    rw [hsum]
    exact ⟨_, rfl⟩
  · exact ⟨_, rfl⟩

theorem fallbackTitled_spec (cfg : Settings) (st3 st' : AgentState) (upd : Updates)
    (tr : List TurnEvent) (h : fallbackTitled cfg st3 = .ok (st', upd, tr)) :
    st' = st3 ∧ tr = [] ∧ upd.created_event = none ∧
    (_missing cfg st3.slots = [] →
      upd.awaiting_confirm = some true ∧
      ∃ summary, _build_confirm_summary cfg st3.slots = .ok summary ∧
        upd.confirm_summary = some summary ∧ upd.reply = some summary) ∧
    (_missing cfg st3.slots ≠ [] →
      upd.reply = some ("Missing: " ++ joinComma (_missing cfg st3.slots) ++ ".") ∧
      upd.awaiting_confirm = none) := by
  unfold fallbackTitled at h
  split at h
  · rename_i hm
    rw [List.isEmpty_iff] at hm
    cases hs : _build_confirm_summary cfg st3.slots with
    | error e => rw [hs] at h; simp at h
    | ok summary =>
      rw [hs] at h
      simp only [Except.ok.injEq, Prod.mk.injEq] at h
      obtain ⟨h1, h2, h3⟩ := h
      subst h1; subst h2; subst h3
      exact ⟨rfl, rfl, rfl, fun _ => ⟨rfl, summary, rfl, rfl, rfl⟩, fun hne => absurd hm hne⟩
  · rename_i hm
    rw [List.isEmpty_iff] at hm
    simp only [Except.ok.injEq, Prod.mk.injEq] at h
    obtain ⟨h1, h2, h3⟩ := h
    subst h1; subst h2; subst h3
    exact ⟨rfl, rfl, rfl, fun he => absurd he hm, fun _ => ⟨rfl, rfl⟩⟩

theorem pre_norm_title (cfg : Settings) (st st1 : AgentState)
    (h : _preextract_slots st = .ok st1) :
    (_normalize_times cfg st1.slots).title = st.slots.title := by
  rcases preextract_slots_eq st st1 h with he | hp
  · rw [(normalize_proj cfg st1.slots).1, he]
  · rw [(normalize_proj cfg st1.slots).1, (preextractSlots_title _ _ _ hp).1]

/-- Claim C8: an undecodable completion response never propagates an error out
of the policy step (given list-of-string attendees); with `title` unset a cheap
"Meeting with Name" / "Meeting" title is synthesized; then the validator either
produces the missing-fields reply or the session transitions to
`awaiting_confirm = true` with the rendered summary as both `confirm_summary`
and `reply`. -/
theorem parse_fallback :
    (∀ cfg o st, decodedDecision (pyStrip o.llmRaw) = none →
        attendeesWF st.slots.attendees = true →
        ∃ r, decide_and_act cfg o st = .ok r)
  ∧ (∀ cfg o st st' upd tr, decodedDecision (pyStrip o.llmRaw) = none →
        decide_and_act cfg o st = .ok (st', upd, tr) →
        tr = [] ∧ upd.created_event = none ∧ jTruthy st'.slots.title = true ∧
        (jTruthy st.slots.title = false →
          (∃ n, st'.slots.title = .str ("Meeting with " ++ n)) ∨
            st'.slots.title = .str "Meeting") ∧
        (_missing cfg st'.slots ≠ [] →
          upd.reply = some ("Missing: " ++ joinComma (_missing cfg st'.slots) ++ ".") ∧
          upd.awaiting_confirm = none) ∧
        (_missing cfg st'.slots = [] →
          upd.awaiting_confirm = some true ∧
          ∃ summary, _build_confirm_summary cfg st'.slots = .ok summary ∧
            upd.confirm_summary = some summary ∧ upd.reply = some summary)) := by
  constructor
  · intro cfg o st hdec hwf
    obtain ⟨st1, hpre, hwf1⟩ := preextract_wf_total st hwf
    unfold decide_and_act
    simp only [hpre, hdec]
    unfold fallbackStep
    split
    · exact fallbackTitled_total cfg _ (by
        rw [(normalize_proj cfg st1.slots).2.1]
        exact hwf1)
    · exact fallbackTitled_total cfg _ (by
        rw [(normalize_proj cfg st1.slots).2.1]
        exact hwf1)
  · intro cfg o st st' upd tr hdec h
    unfold decide_and_act at h
    cases hp : _preextract_slots st with
    | error e => rw [hp] at h; simp at h
    | ok st1 =>
      simp only [hp, hdec] at h
      unfold fallbackStep at h
      split at h
      · rename_i ht
        obtain ⟨h1, h2, h3, h4, h5⟩ := fallbackTitled_spec _ _ _ _ _ h
        have htitle : st'.slots.title = st.slots.title := by
          rw [h1]
          exact pre_norm_title cfg st st1 hp
        have ht' : jTruthy st.slots.title = true := by
          rw [← pre_norm_title cfg st st1 hp]
          exact ht
        refine ⟨h2, h3, ?_, ?_, ?_, ?_⟩
        · rw [htitle]
          exact ht'
        · intro hfalse
          cases ht'.symm.trans hfalse
        · rw [h1]
          exact h5
        · rw [h1]
          exact h4
      · rename_i ht
        obtain ⟨h1, h2, h3, h4, h5⟩ := fallbackTitled_spec _ _ _ _ _ h
        have hmsg : ∃ msg, st'.slots.title = .str (_cheap_title msg) := ⟨_, by rw [h1]⟩
        obtain ⟨msg, hmsg⟩ := hmsg
        refine ⟨h2, h3, ?_, ?_, ?_, ?_⟩
        · rw [hmsg]
          exact cheap_title_truthy msg
        · intro _
          rcases cheap_title_shape msg with ⟨n, hn⟩ | hn
          · exact Or.inl ⟨n, by rw [hmsg, hn]⟩
          · exact Or.inr (by rw [hmsg, hn])
        · rw [h1]
          exact h5
        · rw [h1]
          exact h4

/-- Witness for C8: an unparsable completion response while only the title is
missing yields the synthesized title and the missing-fields reply. -/
theorem parse_fallback_witness :
    (∃ r, decide_and_act cexCfg oracleBad
      { _new_session cexCfg with new_user_message := "meet with Ada" } = .ok r)
    ∧ (match decide_and_act cexCfg oracleBad
          { _new_session cexCfg with new_user_message := "meet with Ada" } with
       | .ok (st', upd, tr) =>
          tr = [] ∧ upd.created_event = none ∧ jTruthy st'.slots.title = true
       | .error _ => False) := by
  constructor
  · exact (parse_fallback.1 cexCfg oracleBad
      { _new_session cexCfg with new_user_message := "meet with Ada" } rfl rfl)
  · have h := parse_fallback.2 cexCfg oracleBad
      { _new_session cexCfg with new_user_message := "meet with Ada" }
    cases hr : decide_and_act cexCfg oracleBad
        { _new_session cexCfg with new_user_message := "meet with Ada" } with
    | ok r =>
      obtain ⟨h1, h2, h3, _⟩ := h r.1 r.2.1 r.2.2 rfl (by rw [hr])
      simp only [hr]
      exact ⟨h1, h2, h3⟩
    | error e =>
      obtain ⟨r, hok⟩ := parse_fallback.1 cexCfg oracleBad
        { _new_session cexCfg with new_user_message := "meet with Ada" } rfl rfl
      rw [hr] at hok
      simp at hok

theorem tool_create_cases (cfg : Settings) (o : Oracle) (st : AgentState)
    (upd : Updates) (s2 : Slots) (tr : List TurnEvent)
    (h : tool_create_event cfg o st = .ok (upd, s2, tr)) :
    (upd.created_event = none ∧ tr = []) ∨
    (upd.created_event = some o.calCreate ∧ upd.reply = some "Event created." ∧
      tr = [.createCall st.awaiting_confirm]) := by
  unfold tool_create_event at h
  split at h
  · cases hd : descWithLink st.slots with
    | error e => simp [hd] at h
    | ok desc =>
      simp only [hd] at h
      cases hv : eventInValidate st.slots desc with
      | error e => simp [hv] at h
      | ok u =>
        simp only [hv] at h
        simp only [Except.ok.injEq, Prod.mk.injEq] at h
        obtain ⟨h1, _, h3⟩ := h
        subst h1; subst h3
        exact Or.inr ⟨rfl, rfl, rfl⟩
  · simp only [Except.ok.injEq, Prod.mk.injEq] at h
    obtain ⟨h1, _, h3⟩ := h
    subst h1; subst h3
    exact Or.inl ⟨rfl, rfl⟩

theorem tool_send_spec (cfg : Settings) (o : Oracle) (st : AgentState) (yes : Bool)
    (upd : Updates) (tr : List TurnEvent)
    (h : tool_send_email cfg o st yes = .ok (upd, tr)) :
    upd.created_event = none ∧ upd.awaiting_confirm = none ∧
    (∀ b, TurnEvent.createCall b ∉ tr) := by
  unfold tool_send_email at h
  repeat' split at h
  all_goals try simp at h
  all_goals obtain ⟨h1, h2⟩ := h
  all_goals subst h1
  all_goals subst h2
  all_goals exact ⟨rfl, rfl, by simp⟩

theorem tool_avail_spec (o : Oracle) (st : AgentState) :
    (tool_check_availability o st).1.created_event = none ∧
    (tool_check_availability o st).1.awaiting_confirm = none ∧
    (∀ b, TurnEvent.createCall b ∉ (tool_check_availability o st).2) := by
  unfold tool_check_availability
  split
  · exact ⟨rfl, rfl, by simp⟩
  · exact ⟨rfl, rfl, by simp [CalendarClient.get_busy, calendarClientMembers]⟩

theorem confirmBuilt_spec (cfg : Settings) (st2in st2 : AgentState) (upd : Updates)
    (tr : List TurnEvent) (h : confirmBuilt cfg st2in = .ok (st2, upd, tr)) :
    st2 = st2in ∧ tr = [] ∧ upd.created_event = none ∧
    ∃ s, _build_confirm_summary cfg st2in.slots = .ok s ∧
      upd = { awaiting_confirm := some true, confirm_summary := some s, reply := some s } := by
  unfold confirmBuilt at h
  cases hs : _build_confirm_summary cfg st2in.slots with
  | error e => simp [hs] at h
  | ok s =>
    simp only [hs, Except.ok.injEq, Prod.mk.injEq] at h
    obtain ⟨h1, h2, h3⟩ := h
    subst h1; subst h2; subst h3
    exact ⟨rfl, rfl, rfl, s, rfl, rfl⟩

theorem dispatch_spec (cfg : Settings) (o : Oracle) (st2in : AgentState) (action : String)
    (args : JVal) (st2 : AgentState) (upd : Updates) (tr : List TurnEvent)
    (h : dispatchAction cfg o st2in action args = .ok (st2, upd, tr)) :
    st2.created_event = st2in.created_event ∧
    st2.awaiting_confirm = st2in.awaiting_confirm ∧
    (∀ b, TurnEvent.createCall b ∈ tr → b = true) ∧
    (upd.created_event ≠ none → TurnEvent.createCall true ∈ tr) := by
  unfold dispatchAction at h
  split at h
  · -- ask
    cases hq : argStrOr args "question" "What should I provide next?" with
    | error e => simp [hq] at h
    | ok q =>
      simp only [hq, Except.ok.injEq, Prod.mk.injEq] at h
      obtain ⟨h1, h2, h3⟩ := h
      subst h1; subst h2; subst h3
      exact ⟨rfl, rfl, by simp, by simp⟩
  split at h
  · -- set
    cases args with
    | obj fs =>
      obtain ⟨h1, h2, h3, _⟩ := fallbackTitled_spec _ _ _ _ _ h
      subst h1
      refine ⟨rfl, rfl, by simp [h2], by simp [h3]⟩
    | null => simp at h
    | jbool b => simp at h
    | num r => simp at h
    | str s => simp at h
    | arr l => simp at h
  split at h
  · -- confirm
    cases hg : argGet args "summary" with
    | error e => simp [hg] at h
    | ok v =>
      rw [hg] at h
      cases v with
      | some w =>
        simp only [] at h
        split at h
        · cases w with
          | str s =>
            simp only [Except.ok.injEq, Prod.mk.injEq] at h
            obtain ⟨h1, h2, h3⟩ := h
            subst h1; subst h2; subst h3
            exact ⟨rfl, rfl, by simp, by simp⟩
          | null => simp at h
          | jbool b => simp at h
          | num r => simp at h
          | arr l => simp at h
          | obj l => simp at h
        · obtain ⟨h1, h2, h3, _⟩ := confirmBuilt_spec _ _ _ _ _ h
          subst h1
          exact ⟨rfl, rfl, by simp [h2], by simp [h3]⟩
      | none =>
        simp only [] at h
        obtain ⟨h1, h2, h3, _⟩ := confirmBuilt_spec _ _ _ _ _ h
        subst h1
        exact ⟨rfl, rfl, by simp [h2], by simp [h3]⟩
  split at h
  · -- check_availability
    simp only [Except.ok.injEq, Prod.mk.injEq] at h
    obtain ⟨h1, h2, h3⟩ := h
    subst h1
    have hav := tool_avail_spec o st2in
    rw [h2] at hav
    refine ⟨rfl, rfl, ?_, ?_⟩
    · intro b hb
      rw [← h3] at hb
      exact absurd hb (hav.2.2 b)
    · intro hc
      exact absurd hav.1 hc
  split at h
  · -- create_event
    split at h
    · obtain ⟨h1, h2, h3, _⟩ := confirmBuilt_spec _ _ _ _ _ h
      subst h1
      exact ⟨rfl, rfl, by simp [h2], by simp [h3]⟩
    · rename_i haw
      have haw' : st2in.awaiting_confirm = true := by
        revert haw
        cases st2in.awaiting_confirm <;> simp
      cases hc : tool_create_event cfg o st2in with
      | error e => simp [hc] at h
      | ok r =>
        obtain ⟨updC, s', trC⟩ := r
        simp only [hc, Except.ok.injEq, Prod.mk.injEq] at h
        obtain ⟨h1, h2, h3⟩ := h
        subst h1; subst h2; subst h3
        rcases tool_create_cases cfg o st2in _ _ _ hc with ⟨hn, ht⟩ | ⟨hs, _, ht⟩
        · exact ⟨rfl, rfl, by simp [ht], fun hcc => absurd hn hcc⟩
        · refine ⟨rfl, rfl, ?_, ?_⟩
          · intro b hb
            rw [ht, haw'] at hb
            simpa using hb
          · intro _
            rw [ht, haw']
            simp
  split at h
  · -- send_email
    cases hg : argGet args "yes" with
    | error e => simp [hg] at h
    | ok v =>
      rw [hg] at h
      cases v with
      | none =>
        simp only [] at h
        cases hm : tool_send_email cfg o st2in true with
        | error e => simp [hm] at h
        | ok r =>
          obtain ⟨updE, trE⟩ := r
          simp only [hm, Except.ok.injEq, Prod.mk.injEq] at h
          obtain ⟨h1, h2, h3⟩ := h
          subst h1; subst h2; subst h3
          obtain ⟨hs1, hs2, hs3⟩ := tool_send_spec _ _ _ _ _ _ hm
          refine ⟨rfl, rfl, ?_, fun hc => absurd hs1 hc⟩
          intro b hb
          exact absurd hb (hs3 b)
      | some w =>
        simp only [] at h
        cases hm : tool_send_email cfg o st2in (jTruthy w) with
        | error e => simp [hm] at h
        | ok r =>
          obtain ⟨updE, trE⟩ := r
          simp only [hm, Except.ok.injEq, Prod.mk.injEq] at h
          obtain ⟨h1, h2, h3⟩ := h
          subst h1; subst h2; subst h3
          obtain ⟨hs1, hs2, hs3⟩ := tool_send_spec _ _ _ _ _ _ hm
          refine ⟨rfl, rfl, ?_, fun hc => absurd hs1 hc⟩
          intro b hb
          exact absurd hb (hs3 b)
  split at h
  · -- finish
    cases hq : argStrGetDefault args "message" "All set." with
    | error e => simp [hq] at h
    | ok msg =>
      simp only [hq, Except.ok.injEq, Prod.mk.injEq] at h
      obtain ⟨h1, h2, h3⟩ := h
      subst h1; subst h2; subst h3
      exact ⟨rfl, rfl, by simp, by simp⟩
  · -- default
    simp only [Except.ok.injEq, Prod.mk.injEq] at h
    obtain ⟨h1, h2, h3⟩ := h
    subst h1; subst h2; subst h3
    exact ⟨rfl, rfl, by simp, by simp⟩

theorem applyUpd_created_none (st : AgentState) (u : Updates)
    (h : u.created_event = none) : (applyUpd st u).created_event = st.created_event := by
  simp [applyUpd, h]

theorem applyUpd_created_some (st : AgentState) (u : Updates) (c : CalResult)
    (h : u.created_event = some c) : (applyUpd st u).created_event = some c := by
  simp [applyUpd, h]

theorem clearConfirm_proj (st : AgentState) (r : String) :
    (clearConfirm st r).created_event = st.created_event ∧
    (clearConfirm st r).slots = st.slots := ⟨rfl, rfl⟩

theorem appendReply_proj (st : AgentState) (r : String) :
    (appendReply st r).created_event = st.created_event ∧
    (appendReply st r).slots = st.slots ∧
    (appendReply st r).awaiting_confirm = st.awaiting_confirm := by
  unfold appendReply
  split <;> exact ⟨rfl, rfl, rfl⟩

theorem confirmCreated_spec (cfg : Settings) (o : Oracle) (st1 : AgentState) (text : String)
    (trC : List TurnEvent) (out : ChatOut) (st' : AgentState) (tr : List TurnEvent)
    (h : confirmCreated cfg o st1 text trC = .ok (out, st', tr)) :
    (∃ trE, tr = trC ++ trE ∧ ∀ b, TurnEvent.createCall b ∉ trE) ∧
    st'.created_event = st1.created_event ∧
    out.done = st'.created_event.isSome := by
  unfold confirmCreated at h
  cases hev : st1.created_event with
  | some ev =>
    simp only [hev] at h
    split at h
    · cases hm : tool_send_email cfg o st1 true with
      | error e => simp [hm] at h
      | ok r =>
        obtain ⟨updE, trE⟩ := r
        simp only [hm] at h
        unfold confirmEmailed at h
        simp only [Except.ok.injEq, Prod.mk.injEq] at h
        obtain ⟨h1, h2, h3⟩ := h
        subst h1; subst h2; subst h3
        obtain ⟨hs1, _, hs3⟩ := tool_send_spec _ _ _ _ _ _ hm
        have hcr : (clearConfirm (applyUpd st1 updE) (applyUpd st1 updE).reply).created_event
            = st1.created_event := by
          rw [(clearConfirm_proj _ _).1, applyUpd_created_none _ _ hs1]
        refine ⟨⟨trE, rfl, hs3⟩, hcr.trans hev, ?_⟩
        rw [hcr, hev]
        rfl
    · simp only [Except.ok.injEq, Prod.mk.injEq] at h
      obtain ⟨h1, h2, h3⟩ := h
      subst h1; subst h2; subst h3
      refine ⟨⟨[], by simp, by simp⟩, ((clearConfirm_proj _ _).1).trans hev, ?_⟩
      rw [(clearConfirm_proj _ _).1, hev]
      rfl
  | none =>
    simp only [hev] at h
    simp only [Except.ok.injEq, Prod.mk.injEq] at h
    obtain ⟨h1, h2, h3⟩ := h
    subst h1; subst h2; subst h3
    refine ⟨⟨[], by simp, by simp⟩, ((clearConfirm_proj _ _).1).trans hev, ?_⟩
    rw [(clearConfirm_proj _ _).1, hev]
    rfl

theorem confirmCreateFlow_spec (cfg : Settings) (o : Oracle) (st : AgentState) (text : String)
    (out : ChatOut) (st' : AgentState) (tr : List TurnEvent)
    (h : confirmCreateFlow cfg o st text = .ok (out, st', tr))
    (hAw : st.awaiting_confirm = true) :
    (∀ b, TurnEvent.createCall b ∈ tr → b = true) ∧
    (st'.created_event ≠ st.created_event → TurnEvent.createCall true ∈ tr) ∧
    out.done = st'.created_event.isSome := by
  unfold confirmCreateFlow at h
  cases hc : tool_create_event cfg o st with
  | error e => simp [hc] at h
  | ok r =>
    obtain ⟨updC, s2, trC⟩ := r
    simp only [hc] at h
    obtain ⟨⟨trE, htr, hnoc⟩, hcr, hdone⟩ := confirmCreated_spec _ _ _ _ _ _ _ _ h
    rcases tool_create_cases cfg o st _ _ _ hc with ⟨hn, htrC⟩ | ⟨hs, _, htrC⟩
    · have h1 : (applyUpd { st with slots := s2 } updC).created_event = st.created_event := by
        rw [applyUpd_created_none _ _ hn]
      refine ⟨?_, ?_, hdone⟩
      · intro b hb
        rw [htr, htrC] at hb
        simp only [List.nil_append] at hb
        exact absurd hb (hnoc b)
      · intro hne
        exact absurd (hcr.trans h1) hne
    · refine ⟨?_, ?_, hdone⟩
      · intro b hb
        rw [htr, htrC, hAw] at hb
        rcases List.mem_append.mp hb with h1 | h1
        · simpa using h1
        · exact absurd h1 (hnoc b)
      · intro _
        rw [htr, htrC, hAw]
        simp

theorem policyFinish_spec (cfg : Settings) (o : Oracle) (st1 : AgentState) (text : String)
    (trP : List TurnEvent) (out : ChatOut) (st' : AgentState) (tr : List TurnEvent)
    (h : policyFinish cfg o st1 text trP = .ok (out, st', tr)) :
    (∃ trE, tr = trP ++ trE ∧ ∀ b, TurnEvent.createCall b ∉ trE) ∧
    st'.created_event = st1.created_event ∧
    out.done = st'.created_event.isSome := by
  unfold policyFinish at h
  split at h
  · split at h
    · cases hm : tool_send_email cfg o st1 true with
      | error e => simp [hm] at h
      | ok r =>
        obtain ⟨updE, trE⟩ := r
        simp only [hm] at h
        unfold policyEmailed at h
        simp only [Except.ok.injEq, Prod.mk.injEq] at h
        obtain ⟨h1, h2, h3⟩ := h
        subst h1; subst h2; subst h3
        obtain ⟨hs1, _, hs3⟩ := tool_send_spec _ _ _ _ _ _ hm
        have hcr : (appendReply
            { applyUpd st1 updE with awaiting_confirm := false, confirm_summary := "" }
            (applyUpd st1 updE).reply).created_event = st1.created_event := by
          rw [(appendReply_proj _ _).1]
          exact applyUpd_created_none _ _ hs1
        refine ⟨⟨trE, rfl, hs3⟩, hcr, ?_⟩
        rw [hcr]
        show (applyUpd st1 updE).created_event.isSome = st1.created_event.isSome
        rw [applyUpd_created_none _ _ hs1]
    · simp only [Except.ok.injEq, Prod.mk.injEq] at h
      obtain ⟨h1, h2, h3⟩ := h
      subst h1; subst h2; subst h3
      have hcr : (appendReply { st1 with awaiting_confirm := false, confirm_summary := "" }
          "Event created. (Skipped email.)").created_event = st1.created_event := by
        rw [(appendReply_proj _ _).1]
      refine ⟨⟨[], by simp, by simp⟩, hcr, ?_⟩
      rw [hcr]
  · simp only [Except.ok.injEq, Prod.mk.injEq] at h
    obtain ⟨h1, h2, h3⟩ := h
    subst h1; subst h2; subst h3
    refine ⟨⟨[], by simp, by simp⟩, (appendReply_proj _ _).1, ?_⟩
    rw [(appendReply_proj _ _).1]

theorem availabilityChecked_spec (cfg : Settings) (o : Oracle) (stB : AgentState)
    (out : ChatOut) (st' : AgentState) (tr : List TurnEvent)
    (h : availabilityChecked cfg o stB = .ok (out, st', tr)) :
    (∀ b, TurnEvent.createCall b ∉ tr) ∧
    st'.created_event = stB.created_event ∧
    out.done = false := by
  unfold availabilityChecked at h
  split at h
  · simp only [Except.ok.injEq, Prod.mk.injEq] at h
    obtain ⟨h1, h2, h3⟩ := h
    subst h1; subst h2; subst h3
    have hav := tool_avail_spec o stB
    refine ⟨fun b hb => absurd hb (hav.2.2 b), ?_, rfl⟩
    rw [(appendReply_proj _ _).1]
    exact applyUpd_created_none _ _ hav.1
  · simp only [Except.ok.injEq, Prod.mk.injEq] at h
    obtain ⟨h1, h2, h3⟩ := h
    subst h1; subst h2; subst h3
    exact ⟨by simp, rfl, rfl⟩

theorem decide_spec (cfg : Settings) (o : Oracle) (st st2 : AgentState) (upd : Updates)
    (tr : List TurnEvent) (h : decide_and_act cfg o st = .ok (st2, upd, tr)) :
    st2.created_event = st.created_event ∧
    st2.awaiting_confirm = st.awaiting_confirm ∧
    (∀ b, TurnEvent.createCall b ∈ tr → b = true) ∧
    (upd.created_event ≠ none → TurnEvent.createCall true ∈ tr) := by
  unfold decide_and_act at h
  cases hp : _preextract_slots st with
  | error e => simp [hp] at h
  | ok st1 =>
    simp only [hp] at h
    obtain ⟨_, _, hAw, hCr, _⟩ := preextract_frame st st1 hp
    cases hdec : decodedDecision (pyStrip o.llmRaw) with
    | none =>
      simp only [hdec] at h
      unfold fallbackStep at h
      split at h
      · obtain ⟨h1, h2, h3, _⟩ := fallbackTitled_spec _ _ _ _ _ h
        subst h1
        exact ⟨hCr, hAw, by simp [h2], by simp [h3]⟩
      · obtain ⟨h1, h2, h3, _⟩ := fallbackTitled_spec _ _ _ _ _ h
        subst h1
        exact ⟨hCr, hAw, by simp [h2], by simp [h3]⟩
    | some dec =>
      simp only [hdec] at h
      cases ha : extractAction dec with
      | error e => simp [ha] at h
      | ok action =>
        simp only [ha] at h
        obtain ⟨d1, d2, d3, d4⟩ := dispatch_spec _ _ _ _ _ _ _ _ h
        exact ⟨d1.trans hCr, d2.trans hAw, d3, d4⟩

theorem mainFlow_gate (cfg : Settings) (o : Oracle) (stB : AgentState) (text : String)
    (out : ChatOut) (st' : AgentState) (tr : List TurnEvent)
    (h : mainFlow cfg o stB text = .ok (out, st', tr)) :
    (∀ b, TurnEvent.createCall b ∈ tr → b = true) ∧
    (st'.created_event ≠ stB.created_event → TurnEvent.createCall true ∈ tr) ∧
    out.done = st'.created_event.isSome := by
  unfold mainFlow at h
  split at h
  · cases hs : _build_confirm_summary cfg stB.slots with
    | error e => simp [hs] at h
    | ok summary =>
      simp only [hs] at h
      have hAw : ({ stB with awaiting_confirm := true, confirm_summary := summary }
          : AgentState).awaiting_confirm = true := rfl
      obtain ⟨hflags, hchg, hdone⟩ := confirmCreateFlow_spec _ _ _ _ _ _ _ h hAw
      exact ⟨hflags, fun hne => hchg hne, hdone⟩
  · cases hd : decide_and_act cfg o stB with
    | error e => simp [hd] at h
    | ok r =>
      obtain ⟨stP, upd, trP⟩ := r
      simp only [hd] at h
      obtain ⟨⟨trE, htr, hnoc⟩, hcr, hdone⟩ := policyFinish_spec _ _ _ _ _ _ _ _ h
      obtain ⟨dcr, _, dflags, dcreate⟩ := decide_spec _ _ _ _ _ _ hd
      refine ⟨?_, ?_, hdone⟩
      · intro b hb
        rw [htr] at hb
        rcases List.mem_append.mp hb with h1 | h1
        · exact dflags b h1
        · exact absurd h1 (hnoc b)
      · intro hne
        rw [htr]
        apply List.mem_append.mpr
        left
        apply dcreate
        intro hcn
        apply hne
        rw [hcr]
        have hup : (applyUpd stP upd).created_event = stP.created_event :=
          applyUpd_created_none _ _ hcn
        exact hup.trans dcr

theorem agentTurn_gate (cfg : Settings) (o : Oracle) (st : AgentState) (text : String)
    (out : ChatOut) (st' : AgentState) (tr : List TurnEvent)
    (h : agentTurn cfg o st text = .ok (out, st', tr)) :
    (∀ b, TurnEvent.createCall b ∈ tr → b = true) ∧
    (st'.created_event ≠ st.created_event → TurnEvent.createCall true ∈ tr) := by
  unfold agentTurn at h
  split at h
  · cases hp : _preextract_slots st with
    | error e => simp [hp] at h
    | ok stA =>
      simp only [hp] at h
      obtain ⟨hnoc, hcr, _⟩ := availabilityChecked_spec _ _ _ _ _ _ h
      obtain ⟨_, _, _, hCr, _⟩ := preextract_frame st stA hp
      exact ⟨fun b hb => absurd hb (hnoc b), fun hne => absurd (hcr.trans hCr) hne⟩
  split at h
  · rename_i hcond
    have hAw : st.awaiting_confirm = true := by
      revert hcond
      cases st.awaiting_confirm <;> simp
    obtain ⟨hflags, hchg, _⟩ := confirmCreateFlow_spec _ _ _ _ _ _ _ h hAw
    exact ⟨hflags, hchg⟩
  split at h
  · unfold declineFlow at h
    simp only [Except.ok.injEq, Prod.mk.injEq] at h
    obtain ⟨h1, h2, h3⟩ := h
    subst h2; subst h3
    exact ⟨by simp, fun hne => absurd (clearConfirm_proj st _).1 hne⟩
  · cases hp : _preextract_slots st with
    | error e => simp [hp] at h
    | ok stA =>
      simp only [hp] at h
      obtain ⟨_, _, _, hCrA, _⟩ := preextract_frame st stA hp
      obtain ⟨hflags, hchg, _⟩ := mainFlow_gate _ _ _ _ _ _ _ h
      refine ⟨hflags, fun hne => hchg ?_⟩
      intro hc
      exact hne (hc.trans hCrA)

theorem agentTurn_done (cfg : Settings) (o : Oracle) (st : AgentState) (text : String)
    (out : ChatOut) (st' : AgentState) (tr : List TurnEvent)
    (h : agentTurn cfg o st text = .ok (out, st', tr)) :
    out.done = (st'.created_event.isSome && !wants_check_availability text &&
      !(st.awaiting_confirm && !is_affirmative text && is_negative text)) := by
  unfold agentTurn at h
  split at h
  · rename_i hw
    cases hp : _preextract_slots st with
    | error e => simp [hp] at h
    | ok stA =>
      simp only [hp] at h
      obtain ⟨_, _, hdone⟩ := availabilityChecked_spec _ _ _ _ _ _ h
      rw [hdone, hw]
      simp
  rename_i hw
  have hw' : wants_check_availability text = false := by
    revert hw
    cases wants_check_availability text <;> simp
  split at h
  · rename_i hc
    have hAw : st.awaiting_confirm = true := by
      revert hc
      cases st.awaiting_confirm <;> simp
    have hY : is_affirmative text = true := by
      revert hc
      cases is_affirmative text <;> simp
    obtain ⟨_, _, hdone⟩ := confirmCreateFlow_spec _ _ _ _ _ _ _ h hAw
    rw [hdone, hw', hAw, hY]
    simp
  rename_i hc
  split at h
  · rename_i hn
    have hAw : st.awaiting_confirm = true := by
      revert hn
      cases st.awaiting_confirm <;> simp
    have hN : is_negative text = true := by
      revert hn
      cases is_negative text <;> simp
    have hY : is_affirmative text = false := by
      revert hc
      rw [hAw]
      cases is_affirmative text <;> simp
    unfold declineFlow at h
    simp only [Except.ok.injEq, Prod.mk.injEq] at h
    obtain ⟨h1, h2, h3⟩ := h
    subst h1
    rw [hw', hAw, hY, hN]
    simp
  · rename_i hn
    cases hp : _preextract_slots st with
    | error e => simp [hp] at h
    | ok stA =>
      simp only [hp] at h
      obtain ⟨_, _, hdone⟩ := mainFlow_gate _ _ _ _ _ _ _ h
      have hinner : (st.awaiting_confirm && !is_affirmative text && is_negative text)
          = false := by
        revert hc hn
        cases st.awaiting_confirm <;> cases is_affirmative text <;>
          cases is_negative text <;> simp
      rw [hdone, hw', hinner]
      simp

/-- Claim C1: confirm-gate invariant.  (a) For every `/agent/chat` turn, every
Create-Event collaborator call in the turn's trace observed `awaiting_confirm =
true` at tool entry, and any change of `created_event` across the turn implies
such a call occurred; (b) a `create_event` action decoded from the completion
collaborator while `awaiting_confirm` is false performs no Create-Event call and
instead returns the update `awaiting_confirm = true` with the rendered
confirmation summary as both `confirm_summary` and `reply`. -/
theorem confirm_gate_invariant :
    (∀ cfg o st0 message out st' tr,
        agent_chat cfg o st0 message = .ok (out, st', tr) →
        (∀ b, TurnEvent.createCall b ∈ tr → b = true) ∧
        (st'.created_event ≠ st0.created_event → TurnEvent.createCall true ∈ tr))
  ∧ (∀ cfg o st dec st2 upd tr,
        decodedDecision (pyStrip o.llmRaw) = some dec →
        extractAction dec = .ok "create_event" →
        st.awaiting_confirm = false →
        decide_and_act cfg o st = .ok (st2, upd, tr) →
        tr = [] ∧ upd.created_event = none ∧ upd.awaiting_confirm = some true ∧
        ∃ s, _build_confirm_summary cfg st2.slots = .ok s ∧
          upd.confirm_summary = some s ∧ upd.reply = some s) := by
  constructor
  · intro cfg o st0 message out st' tr h
    unfold agent_chat at h
    have hg := agentTurn_gate cfg o _ (pyStrip message) out st' tr h
    exact hg
  · intro cfg o st dec st2 upd tr hdec hact hAw h
    unfold decide_and_act at h
    cases hp : _preextract_slots st with
    | error e => simp [hp] at h
    | ok st1 =>
      simp only [hp, hdec] at h
      cases haE : extractAction dec with
      | error e => simp [haE] at h
      | ok action =>
        simp only [haE] at h
        rw [haE] at hact
        simp only [Except.ok.injEq] at hact
        subst hact
        obtain ⟨_, _, hAw1, _, _, _, _⟩ := preextract_frame st st1 hp
        unfold dispatchAction at h
        split at h
        · rename_i hx
          exact absurd hx (by decide)
        split at h
        · rename_i hx
          exact absurd hx (by decide)
        split at h
        · rename_i hx
          exact absurd hx (by decide)
        split at h
        · rename_i hx
          exact absurd hx (by decide)
        split at h
        · split at h
          · obtain ⟨h1, h2, h3, s, hsum, hupd⟩ := confirmBuilt_spec _ _ _ _ _ h
            subst h1
            refine ⟨h2, h3, ?_, s, hsum, ?_, ?_⟩ <;> rw [hupd]
          · rename_i hx
            exfalso
            apply hx
            show (!st1.awaiting_confirm) = true
            rw [hAw1, hAw]
            rfl
        · rename_i hx
          exact absurd (by decide) hx

/-- Witness for C1: with complete slots, a decoded `create_event` action while
not awaiting confirmation yields no collaborator call and an
`awaiting_confirm = true` update. -/
theorem confirm_gate_invariant_witness :
    gateTr = [] ∧ gateUpd.created_event = none ∧ gateUpd.awaiting_confirm = some true := by
  obtain ⟨h1, h2, h3, _⟩ := confirm_gate_invariant.2 cexCfg oracleCreate fullState
    [("action", JVal.str "create_event")] gateSt2 gateUpd gateTr (by rfl) (by rfl) (by rfl)
    (by rfl)
  exact ⟨h1, h2, h3⟩

set_option maxRecDepth 100000 in
/-- Claim C2 counterexample: on the third turn of the scripted session the
message "hello" triggers no collaborator call at all (empty trace, so no
Create-Event action ran, let alone succeeded, in this turn), yet the response
reports `done = true`, because `created_event` persists from the second turn
and the graph returns the whole merged state. -/
theorem done_flag_counterexample :
    chatDone cexTurn3 = some true ∧ chatTrace cexTurn3 = some [] := by decide

/-- Claim C2 (amended): `done` is the truthiness of the session's
`created_event` at the end of the turn — which persists across turns — except
on the availability fast path and on a declined confirmation, where it is
always false. -/
theorem done_flag_amended (cfg : Settings) (o : Oracle) (st0 : AgentState) (message : String)
    (out : ChatOut) (st' : AgentState) (tr : List TurnEvent)
    (h : agent_chat cfg o st0 message = .ok (out, st', tr)) :
    out.done = (st'.created_event.isSome && !wants_check_availability (pyStrip message) &&
      !(st0.awaiting_confirm && !is_affirmative (pyStrip message) &&
        is_negative (pyStrip message))) := by
  unfold agent_chat at h
  have hg := agentTurn_done cfg o _ (pyStrip message) out st' tr h
  exact hg

/-- Witness for the amended C2 on the first scripted turn. -/
theorem done_flag_amended_witness :
    cexOut1.done = (cexS1.created_event.isSome &&
      !wants_check_availability (pyStrip "set it up") &&
      !((_new_session cexCfg).awaiting_confirm && !is_affirmative (pyStrip "set it up") &&
        is_negative (pyStrip "set it up"))) :=
  done_flag_amended cexCfg oracleSet (_new_session cexCfg) "set it up" cexOut1 cexS1 cexTr1
    (by rfl)

theorem str_if_ok (v : JVal) (hv : v = .null ∨ ∃ t, v = .str t) :
    ∃ d, (if jTruthy v then v else .str "") = .str d := by
  rcases hv with hv | ⟨t, hv⟩
  · subst hv
    exact ⟨"", rfl⟩
  · subst hv
    cases hjt : jTruthy (JVal.str t) with
    | true => exact ⟨t, by simp [hjt]⟩
    | false => exact ⟨"", by simp [hjt]⟩

theorem descWithLink_ok_of_wf (s : Slots)
    (hv : s.description = .null ∨ ∃ t, s.description = .str t) :
    ∃ d, descWithLink s = .ok (.str d) := by
  obtain ⟨d0, hd0⟩ := str_if_ok s.description hv
  unfold descWithLink
  rw [hd0]
  repeat' split
  all_goals exact ⟨_, rfl⟩

theorem slotsWF_parts (s : Slots) (hwf : slotsWF s = true) :
    (∃ t, s.title = .str t ∧ 1 ≤ t.length) ∧
    (∃ a, s.start_iso = .str a) ∧ (∃ b, s.end_iso = .str b) ∧ (∃ c, s.timezone = .str c) ∧
    (∃ xs, s.attendees = .arr xs ∧
      (xs.all (fun v => match v with | .str e => validEmailStr e | _ => false)) = true) ∧
    (s.location = .null ∨ ∃ t, s.location = .str t) ∧
    (s.description = .null ∨ ∃ t, s.description = .str t) ∧
    (s.recurrence = .null ∨ ∃ t, s.recurrence = .str t) := by
  simp only [slotsWF, Bool.and_eq_true] at hwf
  obtain ⟨⟨⟨⟨⟨⟨⟨ht, hs⟩, he⟩, htz⟩, hatt⟩, hloc⟩, hdesc⟩, hrec⟩ := hwf
  refine ⟨?_, ?_, ?_, ?_, ?_, ?_, ?_, ?_⟩
  · cases hx : s.title <;> rw [hx] at ht <;> simp at ht
    exact ⟨_, rfl, by simpa using ht⟩
  · cases hx : s.start_iso <;> rw [hx] at hs <;> simp at hs
    exact ⟨_, rfl⟩
  · cases hx : s.end_iso <;> rw [hx] at he <;> simp at he
    exact ⟨_, rfl⟩
  · cases hx : s.timezone <;> rw [hx] at htz <;> simp at htz
    exact ⟨_, rfl⟩
  · cases hx : s.attendees with
    | arr xs => rw [hx] at hatt; exact ⟨xs, rfl, hatt⟩
    | null => rw [hx] at hatt; simp at hatt
    | jbool b => rw [hx] at hatt; simp at hatt
    | num r => rw [hx] at hatt; simp at hatt
    | str t => rw [hx] at hatt; simp at hatt
    | obj fs => rw [hx] at hatt; simp at hatt
  · cases hx : s.location <;> rw [hx] at hloc <;> simp at hloc
    · exact Or.inl rfl
    · exact Or.inr ⟨_, rfl⟩
  · cases hx : s.description <;> rw [hx] at hdesc <;> simp at hdesc
    · exact Or.inl rfl
    · exact Or.inr ⟨_, rfl⟩
  · cases hx : s.recurrence <;> rw [hx] at hrec <;> simp at hrec
    · exact Or.inl rfl
    · exact Or.inr ⟨_, rfl⟩

theorem strItems_of_all (xs : List JVal)
    (h : (xs.all (fun v => match v with | .str e => validEmailStr e | _ => false)) = true) :
    ∃ ss, strItems xs = .ok ss ∧ ss.all validEmailStr = true := by
  induction xs with
  | nil => exact ⟨[], rfl, rfl⟩
  | cons v t ih =>
    simp only [List.all_cons, Bool.and_eq_true] at h
    obtain ⟨hv, ht⟩ := h
    obtain ⟨ss, hss, hall⟩ := ih ht
    cases v with
    | str e =>
      have hv' : validEmailStr e = true := hv
      refine ⟨e :: ss, ?_, ?_⟩
      · unfold strItems
        rw [hss]
        rfl
      · simp [hv', hall]
    | null => simp at hv
    | jbool b => simp at hv
    | num r => simp at hv
    | arr l => simp at hv
    | obj l => simp at hv

theorem pyJoinComma_arr_ok (xs : List JVal) (ss : List String)
    (hss : strItems xs = .ok ss) : pyJoinComma (.arr xs) = .ok (joinComma ss) := by
  unfold pyJoinComma
  dsimp only []
  rw [hss]
  rfl

theorem eventInValidate_ok_of_wf (s : Slots) (d : String) (hwf : slotsWF s = true) :
    eventInValidate s (.str d) = .ok () := by
  obtain ⟨⟨t, hT, htl⟩, ⟨a, hS⟩, ⟨b, hE⟩, ⟨c, hZ⟩, ⟨xs, hA, hall⟩, hloc, hdesc, hrec⟩ :=
    slotsWF_parts s hwf
  obtain ⟨ss, hss, hssall⟩ := strItems_of_all xs hall
  unfold eventInValidate
  rw [hT, hS, hE, hZ, hA]
  dsimp only []
  rw [if_neg (show ¬(t.length < 1) by omega), hss]
  rcases hloc with hl | ⟨lt, hl⟩ <;> rcases hrec with hr | ⟨rt, hr⟩ <;> rw [hl, hr] <;>
    dsimp only []
  all_goals rw [if_pos hssall]
  all_goals split
  all_goals try (rename_i heq; split at heq <;> simp at heq)
  all_goals split
  all_goals try rfl
  all_goals (rename_i heq; split at heq <;> simp at heq)

theorem tool_create_ok_of_wf (cfg : Settings) (o : Oracle) (st : AgentState)
    (hm : _missing cfg st.slots = []) (hwf : slotsWF st.slots = true) :
    tool_create_event cfg o st = .ok
      ({ created_event := some o.calCreate, reply := some "Event created." },
       (match createdLink o.calCreate with
        | some l => { st.slots with link := .str l }
        | none => st.slots),
       [.createCall st.awaiting_confirm]) := by
  have hdesc := (slotsWF_parts st.slots hwf).2.2.2.2.2.2.1
  obtain ⟨d, hd⟩ := descWithLink_ok_of_wf st.slots hdesc
  unfold tool_create_event
  rw [hm]
  split
  · rw [hd]
    dsimp only []
    rw [eventInValidate_ok_of_wf st.slots d hwf]
  · rename_i hx
    simp at hx

theorem tool_send_ok (cfg : Settings) (o : Oracle) (st : AgentState) (ev : CalResult)
    (hev : st.created_event = some ev)
    (hatt : jTruthy st.slots.attendees = true)
    (hwf : slotsWF st.slots = true)
    (hg : (cfg.gmail_from == "") = false) :
    tool_send_email cfg o st true = .ok
      ({ email_result := some o.gmailSend, reply := some "Event created and email sent." },
       [.emailCall]) := by
  obtain ⟨xs, hA, hall⟩ := (slotsWF_parts st.slots hwf).2.2.2.2.1
  obtain ⟨ss, hss, _⟩ := strItems_of_all xs hall
  have hsend : GmailClient.send cfg o st.slots.attendees (inviteEmailText st.slots ev).1
      (inviteEmailText st.slots ev).2 = .ok o.gmailSend := by
    unfold GmailClient.send
    split
    · rename_i hx
      rw [hg] at hx
      simp at hx
    · rw [hA, pyJoinComma_arr_ok xs ss hss]
  unfold tool_send_email
  split
  · rename_i hx
    simp at hx
  · rw [hev]
    dsimp only []
    split
    · rename_i hx
      rw [hatt] at hx
      simp at hx
    · rw [hsend]

theorem confirmCreated_email_run (cfg : Settings) (o : Oracle) (st1 : AgentState)
    (text : String) (trC : List TurnEvent) (ev : CalResult)
    (out : ChatOut) (st' : AgentState) (tr : List TurnEvent)
    (h : confirmCreated cfg o st1 text trC = .ok (out, st', tr))
    (hev : st1.created_event = some ev)
    (hNE : wants_no_email text = false)
    (hatt : jTruthy st1.slots.attendees = true)
    (hwf : slotsWF st1.slots = true)
    (hg : (cfg.gmail_from == "") = false) :
    out.done = true ∧ out.reply = "Event created and email sent." ∧
    out.data = some ⟨some ev, some o.gmailSend⟩ ∧ tr = trC ++ [TurnEvent.emailCall] := by
  unfold confirmCreated at h
  simp only [hev] at h
  split at h
  · simp only [tool_send_ok cfg o st1 ev hev hatt hwf hg] at h
    unfold confirmEmailed at h
    simp only [Except.ok.injEq, Prod.mk.injEq] at h
    obtain ⟨h1, h2, h3⟩ := h
    subst h1; subst h2; subst h3
    exact ⟨rfl, rfl, rfl, rfl⟩
  · rename_i hx
    rw [hNE] at hx
    simp at hx

theorem confirmCreated_skip (cfg : Settings) (o : Oracle) (st1 : AgentState)
    (text : String) (trC : List TurnEvent) (ev : CalResult)
    (out : ChatOut) (st' : AgentState) (tr : List TurnEvent)
    (h : confirmCreated cfg o st1 text trC = .ok (out, st', tr))
    (hev : st1.created_event = some ev)
    (hNE : wants_no_email text = true) :
    out = ⟨"Event created. (Skipped email.)", st1.slots, true, some ⟨some ev, none⟩⟩ ∧
    tr = trC := by
  unfold confirmCreated at h
  simp only [hev] at h
  split at h
  · rename_i hx
    rw [hNE] at hx
    simp at hx
  · simp only [Except.ok.injEq, Prod.mk.injEq] at h
    obtain ⟨h1, h2, h3⟩ := h
    exact ⟨h1.symm, h3.symm⟩

theorem confirmYes_email_turn (cfg : Settings) (o : Oracle) (st : AgentState) (text : String)
    (out : ChatOut) (st' : AgentState) (tr : List TurnEvent)
    (h : agentTurn cfg o st text = .ok (out, st', tr))
    (hW : wants_check_availability text = false)
    (hA : st.awaiting_confirm = true)
    (hY : is_affirmative text = true)
    (hNE : wants_no_email text = false)
    (hM : _missing cfg st.slots = [])
    (hWF : slotsWF st.slots = true)
    (hAtt : jTruthy st.slots.attendees = true)
    (hG : (cfg.gmail_from == "") = false) :
    out.done = true ∧ out.reply = "Event created and email sent." ∧
    out.data = some ⟨some o.calCreate, some o.gmailSend⟩ ∧
    tr = [TurnEvent.createCall true, TurnEvent.emailCall] := by
  unfold agentTurn at h
  split at h
  · rename_i hx
    simp [hW] at hx
  split at h
  · unfold confirmCreateFlow at h
    simp only [tool_create_ok_of_wf cfg o st hM hWF] at h
    obtain ⟨hd, hr, hdata, htr⟩ := confirmCreated_email_run cfg o _ text _ o.calCreate
      out st' tr h rfl hNE
      (by cases createdLink o.calCreate <;> exact hAtt)
      (by cases createdLink o.calCreate <;> exact hWF)
      hG
    refine ⟨hd, hr, hdata, ?_⟩
    rw [htr, hA]
    rfl
  · rename_i hx
    simp [hA, hY] at hx

theorem confirmYes_skip_turn (cfg : Settings) (o : Oracle) (st : AgentState) (text : String)
    (out : ChatOut) (st' : AgentState) (tr : List TurnEvent)
    (h : agentTurn cfg o st text = .ok (out, st', tr))
    (hW : wants_check_availability text = false)
    (hA : st.awaiting_confirm = true)
    (hY : is_affirmative text = true)
    (hNE : wants_no_email text = true)
    (hM : _missing cfg st.slots = [])
    (hWF : slotsWF st.slots = true) :
    out.reply = "Event created. (Skipped email.)" ∧ out.done = true ∧
    out.data = some ⟨some o.calCreate, none⟩ ∧ tr = [TurnEvent.createCall true] := by
  unfold agentTurn at h
  split at h
  · rename_i hx
    simp [hW] at hx
  split at h
  · unfold confirmCreateFlow at h
    simp only [tool_create_ok_of_wf cfg o st hM hWF] at h
    obtain ⟨hout, htr⟩ := confirmCreated_skip cfg o _ text _ o.calCreate out st' tr h rfl hNE
    subst hout
    refine ⟨rfl, rfl, rfl, ?_⟩
    rw [htr, hA]
  · rename_i hx
    simp [hA, hY] at hx

/-- Claim C10: with slots that pass validation, `tool_create_event`
unconditionally stores the Calendar collaborator's result — whatever its `ok`
flag — as `created_event` and replies "Event created."; the chat handler's
confirmation path then treats any stored result as a successful creation: it
sends the follow-up email, reports `done = true` and returns the stored result
in `data`, never inspecting `ok` (witnessed below with an `ok = false`
result). -/
theorem create_result_not_inspected :
    (∀ cfg o st, _missing cfg st.slots = [] → slotsWF st.slots = true →
        tool_create_event cfg o st = .ok
          ({ created_event := some o.calCreate, reply := some "Event created." },
           (match createdLink o.calCreate with
            | some l => { st.slots with link := .str l }
            | none => st.slots),
           [.createCall st.awaiting_confirm]))
  ∧ (∀ cfg o st0 message out st' tr,
        agent_chat cfg o st0 message = .ok (out, st', tr) →
        wants_check_availability (pyStrip message) = false →
        st0.awaiting_confirm = true →
        is_affirmative (pyStrip message) = true →
        wants_no_email (pyStrip message) = false →
        _missing cfg st0.slots = [] →
        slotsWF st0.slots = true →
        jTruthy st0.slots.attendees = true →
        (cfg.gmail_from == "") = false →
        out.done = true ∧ out.reply = "Event created and email sent." ∧
        out.data = some ⟨some o.calCreate, some o.gmailSend⟩ ∧
        tr = [TurnEvent.createCall true, TurnEvent.emailCall]) := by
  constructor
  · intro cfg o st hm hwf
    exact tool_create_ok_of_wf cfg o st hm hwf
  · intro cfg o st0 message out st' tr h hW hA hY hNE hM hWF hAtt hG
    unfold agent_chat at h
    exact confirmYes_email_turn cfg o _ (pyStrip message) out st' tr h hW hA hY hNE hM hWF
      hAtt hG

set_option maxRecDepth 100000 in
/-- Witness for C10: a Calendar collaborator result with `ok = false` is still
stored, the email is still sent, and the turn still reports `done = true`. -/
theorem create_result_not_inspected_witness :
    calFailRes.ok = false ∧ c10Out.done = true ∧
    c10Out.data = some ⟨some calFailRes, some mailOkRes⟩ ∧
    c10Tr = [TurnEvent.createCall true, TurnEvent.emailCall] := by
  obtain ⟨h1, _, h3, h4⟩ := create_result_not_inspected.2 cexCfg oracleFailCal fullAwait "yes"
    c10Out c10St c10Tr (by rfl) (by decide) (by rfl) (by decide) (by decide) (by decide)
    (by decide) (by decide) (by decide)
  exact ⟨rfl, h1, h3, h4⟩

set_option maxRecDepth 100000 in
/-- Claim C4 counterexample: the message "no email please" alone during a
confirmation turn matches the negative regex, so the turn is treated as a
declined confirmation: no event is created (empty trace), `done` is false, the
reply is the change prompt, and `data` is null — not the claimed
"Event created. (Skipped email.)" outcome. -/
theorem no_email_counterexample :
    chatReply cexTurnNoEmail = some "Okay, what would you like to change?" ∧
    chatDone cexTurnNoEmail = some false ∧
    chatTrace cexTurnNoEmail = some [] ∧
    chatData cexTurnNoEmail = some none ∧
    is_negative (pyStrip "no email please") = true := by decide

/-- Claim C4 (amended): when the confirmation-turn message is affirmative and
additionally asks to skip the email, the event is created, the reply is
exactly "Event created. (Skipped email.)", `done` is true, and `data` carries
the created event with no email entry. -/
theorem no_email_amended (cfg : Settings) (o : Oracle) (st0 : AgentState) (message : String)
    (out : ChatOut) (st' : AgentState) (tr : List TurnEvent)
    (h : agent_chat cfg o st0 message = .ok (out, st', tr))
    (hW : wants_check_availability (pyStrip message) = false)
    (hA : st0.awaiting_confirm = true)
    (hY : is_affirmative (pyStrip message) = true)
    (hNE : wants_no_email (pyStrip message) = true)
    (hM : _missing cfg st0.slots = [])
    (hWF : slotsWF st0.slots = true) :
    out.reply = "Event created. (Skipped email.)" ∧ out.done = true ∧
    out.data = some ⟨some o.calCreate, none⟩ ∧ tr = [TurnEvent.createCall true] := by
  unfold agent_chat at h
  exact confirmYes_skip_turn cfg o _ (pyStrip message) out st' tr h hW hA hY hNE hM hWF

set_option maxRecDepth 100000 in
/-- Witness for the amended C4: "yes, and no email please" while awaiting
confirmation creates the event, skips the email, and reports done. -/
theorem no_email_amended_witness :
    c4Out.reply = "Event created. (Skipped email.)" ∧ c4Out.done = true ∧
    c4Out.data = some ⟨some calOkRes, none⟩ ∧ c4Tr = [TurnEvent.createCall true] := by
  obtain ⟨h1, h2, h3, h4⟩ := no_email_amended cexCfg oracleAsk fullAwait
    "yes, and no email please" c4Out c4St c4Tr (by rfl) (by decide) (by rfl) (by decide)
    (by decide) (by decide) (by decide)
  exact ⟨h1, h2, h3, h4⟩

set_option maxRecDepth 100000 in
theorem availRun (cfg : Settings) (o : Oracle) :
    agent_chat cfg o (_new_session cfg) "am I free tomorrow 2-3pm?" =
    availabilityChecked cfg o (freshAvailState cfg) := rfl

theorem availMissing (cfg : Settings) :
    _missing cfg (freshAvailState cfg).slots =
      ["title", "start_iso", "end_iso"] ++
        (if cfg.default_timezone == "" then ["timezone"] else []) := by
  obtain ⟨dtz, off, gm⟩ := cfg
  cases hz : dtz == "" with
  | true =>
    have hd : dtz = "" := by simpa using hz
    subst hd
    rfl
  | false =>
    have hjt : jTruthy (JVal.str dtz) = true := by simp [jTruthy, hz]
    show _missing ⟨dtz, off, gm⟩
      (_normalize_times ⟨dtz, off, gm⟩ (_new_session ⟨dtz, off, gm⟩).slots) = _
    unfold _normalize_times
    dsimp only [_new_session]
    rw [if_pos hjt]
    simp [_missing, REQUIRED, sget, Slots.get, ordViolation, normalizeOne, jTruthy, hjt, hz,
      List.filter_cons, List.filter_nil]

set_option maxRecDepth 100000 in
/-- Claim C3 counterexample: on a fresh session (whose timezone slot is
prefilled with the configured default, here nonempty), the availability request
reply lists only title/start_iso/end_iso — it does not contain "timezone" —
and no collaborator call occurs. -/
theorem availability_missing_counterexample :
    cexAvailReply = "Missing for availability check: title, start_iso, end_iso." ∧
    strSub "timezone" cexAvailReply = false ∧
    chatTrace cexAvail = some [] ∧ chatDone cexAvail = some false := by decide

/-- Claim C3 (amended): an availability request on a fresh session replies with
the missing required fields and performs no collaborator call; `timezone` is
listed among them exactly when the configured default timezone is empty
(otherwise the session's timezone slot was auto-filled and is never missing). -/
theorem availability_missing_amended (cfg : Settings) (o : Oracle) (out : ChatOut)
    (st' : AgentState) (tr : List TurnEvent)
    (h : agent_chat cfg o (_new_session cfg) "am I free tomorrow 2-3pm?" = .ok (out, st', tr)) :
    tr = [] ∧ out.done = false ∧
    (cfg.default_timezone ≠ "" →
      out.reply = "Missing for availability check: title, start_iso, end_iso.") ∧
    (cfg.default_timezone = "" →
      out.reply = "Missing for availability check: title, start_iso, end_iso, timezone.") := by
  rw [availRun cfg o] at h
  unfold availabilityChecked at h
  rw [availMissing cfg] at h
  split at h <;> rename_i hz
  · split at h
    · rename_i hc
      simp at hc
    · simp only [Except.ok.injEq, Prod.mk.injEq] at h
      obtain ⟨h1, h2, h3⟩ := h
      subst h1; subst h2; subst h3
      have he : cfg.default_timezone = "" := by simpa using hz
      exact ⟨rfl, rfl, fun hne => absurd he hne, fun _ => rfl⟩
  · split at h
    · rename_i hc
      simp at hc
    · simp only [Except.ok.injEq, Prod.mk.injEq] at h
      obtain ⟨h1, h2, h3⟩ := h
      subst h1; subst h2; subst h3
      have hne : cfg.default_timezone ≠ "" := by simpa using hz
      exact ⟨rfl, rfl, fun _ => rfl, fun he => absurd he hne⟩

set_option maxRecDepth 100000 in
/-- Witness for the amended C3 at the concrete configuration. -/
theorem availability_missing_amended_witness :
    cexCfg.default_timezone ≠ "" ∧
    cexAvailOut.reply = "Missing for availability check: title, start_iso, end_iso." ∧
    cexAvailTr = [] := by
  obtain ⟨h1, _, h3, _⟩ := availability_missing_amended cexCfg oracleAsk cexAvailOut cexAvailSt
    cexAvailTr (by rfl)
  exact ⟨by decide, h3 (by decide), h1⟩
